import Mathlib

/-!
Shallow embedding of the core data model and serialization layer of
`ccb/io/dataset.py` (classes `BandInfo`, `Band`, `Sample`, `Partition`,
`Dataset` and the geotiff writers/loaders), together with theorems that
settle the frozen claims about this layer.

Modelling conventions:
* numpy floating point values are modelled as rationals (`ℚ`); the
  comparisons appearing in the code (`< -32768`, `> 32767`, `> 1e-6`,
  `<= 0.5`) are decided identically on the rational readings of all the
  constants involved;
* numpy arrays are modelled as nested lists with an explicit 2d/3d tag
  (`NDData`) plus a dtype marker (`NDArray`); numpy shapes are read off
  the nesting in row-major order, as `shape = (h, w[, c])`;
* exceptions are modelled with `Except`; each error constructor is noted
  with the `raise`/`assert` site of the source it stands for (the source
  raises `ValueError`/`AssertionError`; the spec's §7 names are "kinds,
  not implementation types");
* the file system is modelled as an association list from paths to file
  contents, threaded explicitly where a claim is about on-disk state;
* `datetime.date` values are modelled as natural numbers ordered like
  dates; `_format_date` is modelled by `toString`, which, like the
  `YYYY-MM-DD` rendering, sends distinct dates to distinct strings.
-/

/-- Join of a list of lists (model of flattening a nested numpy axis). -/
def listJoin {α : Type} (ls : List (List α)) : List α :=
  ls.foldr (· ++ ·) []

/-- Model of `np.round`: round half to even, the IEEE rounding numpy uses. -/
def roundHalfEven (q : ℚ) : ℤ :=
  let f := ⌊q⌋
  let frac := q - (f : ℚ)
  if frac < 1/2 then f
  else if 1/2 < frac then f + 1
  else if f % 2 = 0 then f else f + 1

/-- Numpy dtype markers that the code branches on. -/
inductive DType where
  | int16
  | int32
  | float32
  | float64
  | other
deriving DecidableEq, BEq, Repr

/-- Pixel contents of a numpy array: 2d `(h, w)` or 3d `(h, w, c)`. -/
inductive NDData where
  | d2 (rows : List (List ℚ))
  | d3 (rows : List (List (List ℚ)))
deriving DecidableEq, Repr

/-- Flat list of all pixel values of an array (order irrelevant to the
reductions `np.min`/`np.max`/`np.sum` the code applies to it). -/
def NDData.vals : NDData → List ℚ
  | .d2 rows => listJoin rows
  | .d3 rows => listJoin (listJoin rows)

/-- Model of a numpy array: dtype marker plus tagged nested pixel lists. -/
structure NDArray where
  dtype : DType
  nd : NDData
deriving DecidableEq, Repr

/-- Model of `np.expand_dims(data, 2)`: each pixel becomes a singleton
channel vector. -/
def expandDims2 (rows : List (List ℚ)) : List (List (List ℚ)) :=
  rows.map (fun r => r.map (fun v => [v]))

/-- Model of `np.squeeze(data, axis=2)` for a 3d array whose channel axis
has length 1 (numpy shape semantics: the checked length is that of the
first cell). -/
def squeeze2 (rows : List (List (List ℚ))) : List (List ℚ) :=
  rows.map (fun r => r.map (fun cell => cell.headD 0))

/-- Channel count `data.shape[2]` of a 3d array in numpy shape semantics
(length of the first cell's channel vector; arrays are rectangular). -/
def chans3 (rows : List (List (List ℚ))) : ℕ :=
  ((rows.headD []).headD []).length

/-- Height `shape[0]` of a 3d array. -/
def height3 (rows : List (List (List ℚ))) : ℕ := rows.length

/-- Width `shape[1]` of a 3d array. -/
def width3 (rows : List (List (List ℚ))) : ℕ := (rows.headD []).length

/-- Map a function over every pixel of a 3d array. -/
def map3 (f : ℚ → ℚ) (rows : List (List (List ℚ))) : List (List (List ℚ)) :=
  rows.map (fun r => r.map (fun cell => cell.map f))

/-- View of an array as 3d, as done at the start of `write_to_geotiff` and
in the packing loop: `if data.ndim == 2: data = np.expand_dims(data, 2)`. -/
def NDData.toD3 : NDData → List (List (List ℚ))
  | .d2 rows => expandDims2 rows
  | .d3 rows => rows

/-- Concrete Python classes of the `BandInfo` hierarchy in
`ccb/io/dataset.py`.  `__eq__` compares `type(other) is type(self)`, so the
class is part of a band info's identity. -/
inductive BandClass where
  | bandInfo
  | spectralBand
  | sentinel1
  | sentinel2
  | landsat8
  | mask
  | elevationBand
  | multiBand
  | hyperSpectralBands
  | cloudProbability
  | segmentationClasses
deriving DecidableEq, BEq, Repr

/-- Classes `MultiBand` and its subclass `HyperSpectralBands` are the
`isinstance(·, MultiBand)` positives. -/
def BandClass.isMultiBand : BandClass → Bool
  | .multiBand => true
  | .hyperSpectralBands => true
  | _ => false

/-- Among the `BandInfo` subclasses of `dataset.py`, only
`SegmentationClasses` also derives from `ccb.io.label.LabelType`
(class `SegmentationClasses(BandInfo, LabelType)`), so it is the only
`isinstance(·, LabelType)` positive a `Band.band_info` can be. -/
def BandClass.isLabelType : BandClass → Bool
  | .segmentationClasses => true
  | _ => false

/-- Model of a `BandInfo` object: its concrete class plus the union of the
fields set by the constructors of the hierarchy (fields a class does not
have are `none`). -/
structure BandInfo where
  cls : BandClass
  name : String
  alt_names : List String
  spatial_resolution : Option ℚ
  wavelength : Option ℚ
  n_bands : Option ℕ
  n_classes : Option ℕ
deriving DecidableEq, Repr

/-- Model of `BandInfo.__eq__`: `type(other) is type(self)` and
`self.__key() == other.__key()`.  Inside `class BandInfo`, `self.__key()`
is name-mangled to `self._BandInfo__key()`, and `SpectralBand.__key`
mangles to `_SpectralBand__key`, so the subclass `__key` (which would add
the wavelength) is never called by the inherited `__eq__`/`__hash__`:
the compared key is always just `self.name`. -/
def BandInfo.beq (a b : BandInfo) : Bool :=
  decide (a.cls = b.cls) && decide (a.name = b.name)

/-- Model of `BandInfo.__hash__`: `hash(self._BandInfo__key())`, i.e. the
hash depends only on `name` (same name-mangling remark as for `beq`). -/
def BandInfo.hashKey (a : BandInfo) : String :=
  a.name

/-- Model of `expand_name`: `MultiBand` (and `HyperSpectralBands`)
overrides it to `[self.name] * self.n_bands`; every other class returns
`[self.name]`. -/
def BandInfo.expand_name (bi : BandInfo) : List String :=
  if bi.cls.isMultiBand then List.replicate (bi.n_bands.getD 0) bi.name
  else [bi.name]

/-- All names a band info answers to: `band_info.alt_names +
(band_info.name,)` as built in `Dataset.alt_to_full_names` (alt names
first, canonical name appended). -/
def BandInfo.possibleNames (bi : BandInfo) : List String :=
  bi.alt_names ++ [bi.name]

/-- Model of a `Band` object (`dataset.py`, class `Band`). -/
structure Band where
  data : NDArray
  band_info : BandInfo
  spatial_resolution : ℚ
  date : Option ℕ
  date_id : Option ℕ
  transform : Option String
  crs : Option String
  meta_info : Option String
  convert_to_int16 : Bool
deriving DecidableEq, Repr

/-- Model of `Band.__init__`: all fields are stored as passed except
`date_id`, which defaults to `date` when `None`. -/
def Band.init (data : NDArray) (band_info : BandInfo)
    (spatial_resolution : ℚ) (date : Option ℕ) (date_id : Option ℕ)
    (transform : Option String) (crs : Option String)
    (meta_info : Option String) (convert_to_int16 : Bool) : Band :=
  { data := data
    band_info := band_info
    spatial_resolution := spatial_resolution
    date := date
    date_id := if date_id.isNone then date else date_id
    transform := transform
    crs := crs
    meta_info := meta_info
    convert_to_int16 := convert_to_int16 }

/-- Model of `_format_date` on a present date: a rendering (`YYYY-MM-DD`
or timestamp form) that sends distinct dates to distinct strings. -/
def formatDate (d : ℕ) : String := toString d

/-- Model of `Band.get_descriptor`: the canonical band name, suffixed with
the formatted date when a date is present. -/
def Band.get_descriptor (b : Band) : String :=
  match b.date with
  | none => b.band_info.name
  | some d => b.band_info.name ++ "_" ++ formatDate d

/-- Error kinds raised by the write paths of `dataset.py` (the source
raises `ValueError` with distinguishing messages; the spec's §7 calls
these kinds `RangeError`, `PrecisionLossError`, `DuplicateBandError`). -/
inductive WriteError where
  /-- raise site `dataset.py:306`: "Data out of range. Will not convert to
  int16." -/
  | rangeError
  /-- raise site `dataset.py:309`: "Float value between 1e-6 and 0.5 would
  be converted to 0 when casting to int16, which is the nodata value." -/
  | precisionLossError
  /-- raise sites `dataset.py:551` and `dataset.py:569`: "The label is of
  type Band, but its band_info is not instance of Label." -/
  | labelNotLabelType
  /-- raise site `dataset.py:543`: "Duplicate band description in bands.
  Perhaps date is missing?" -/
  | duplicateBand
deriving DecidableEq, Repr

/-- Pickled side-channel tag written by `write_to_geotiff`
(`tags = dict(date=..., date_id=..., spatial_resolution=..., band_info=...,
meta_info=...)`); pickling round-trips these values exactly. -/
structure TifTags where
  date : Option ℕ
  date_id : Option ℕ
  spatial_resolution : ℚ
  band_info : BandInfo
  meta_info : Option String
deriving DecidableEq, Repr

/-- Model of the geotiff file produced by `Band.write_to_geotiff`.
The pixel block is stored in `(h, w, c)` layout: the writer's
`np.moveaxis(data, 2, 0)` and the loader's `np.moveaxis(data, 0, 2)` are
mutually inverse, so the pair is modelled as the identity. -/
structure GeoTiff where
  path : String
  height : ℕ
  width : ℕ
  count : ℕ
  dtype : DType
  crs : Option String
  transform : Option String
  tags : TifTags
  nodata : ℚ
  data3 : List (List (List ℚ))
  band_descriptions : List String
deriving DecidableEq, Repr

/-- Model of the range check
`np.min(data) < -32768 or np.max(data) > 32767`, phrased with `any`
(equivalent for the nonempty arrays numpy's reductions accept). -/
def outOfInt16 (vals : List ℚ) : Bool :=
  vals.any (fun v => v < -32768 || 32767 < v)

/-- Model of the precision check
`np.sum(np.logical_and(data > 1e-6, data <= 0.5)) > 0`. -/
def precisionHazard (vals : List ℚ) : Bool :=
  vals.any (fun v => 1/1000000 < v && v ≤ 1/2)

/-- Model of `np.round(data).astype(np.int16)` on the pixel block.  The
cast is value-exact here because the range check has already bounded the
values inside the int16 range. -/
def roundPixels (rows : List (List (List ℚ))) : List (List (List ℚ)) :=
  map3 (fun v => ((roundHalfEven v : ℤ) : ℚ)) rows

/-- Left-pad with `'0'` to three characters: model of the `f"{i:03d}"`
channel-index prefix. -/
def pad3 (i : ℕ) : String :=
  let s := toString i
  String.mk (List.replicate (3 - s.length) '0') ++ s

/-- Band descriptions set at the end of `write_to_geotiff`: the plain name
for a single channel, `f"{i:03d}_{name}"` per channel otherwise. -/
def bandDescriptions (c : ℕ) (name : String) : List String :=
  if c = 1 then [name]
  else (List.range c).map (fun i => pad3 i ++ "_" ++ name)

/-- Model of `Band.write_to_geotiff(directory)` (`dataset.py:277-352`):
expand 2d data to a trailing channel axis; under `convert_to_int16`
validate the int16 range (`np.min(data) < -32768 or np.max(data) > 32767`,
here phrased with `any`, equivalent for the nonempty arrays numpy's
reductions accept), reject values in `(1e-6, 0.5]`, then round and cast to
int16 (the cast is value-exact because the range was just checked);
otherwise downcast float64 to float32 (a dtype change; the value-level
narrowing of a float64→float32 cast is outside the rational model).
Returns the file record written at `directory/descriptor.tif`. -/
def Band.write_to_geotiff (b : Band) (directory : String) :
    Except WriteError GeoTiff :=
  let data3 : List (List (List ℚ)) := b.data.nd.toD3
  let vals := listJoin (listJoin data3)
  let step : Except WriteError (List (List (List ℚ)) × DType) :=
    if b.convert_to_int16 then
      if outOfInt16 vals then
        .error .rangeError
      else if precisionHazard vals then
        .error .precisionLossError
      else
        .ok (roundPixels data3, .int16)
    else if b.data.dtype == .float64 then
      .ok (data3, .float32)
    else
      .ok (data3, b.data.dtype)
  step.map (fun (out, dt) =>
    { path := directory ++ "/" ++ b.get_descriptor ++ ".tif"
      height := height3 out
      width := width3 out
      count := chans3 out
      dtype := dt
      crs := b.crs
      transform := b.transform
      tags :=
        { date := b.date
          date_id := b.date_id
          spatial_resolution := b.spatial_resolution
          band_info := b.band_info
          meta_info := b.meta_info }
      nodata := 0
      data3 := out
      band_descriptions := bandDescriptions (chans3 out) b.band_info.name })

/-- Failure of the loader's `assert data.shape[2] == 1` for a 3-channel
file whose band info is not a `MultiBand` (`dataset.py:364`). -/
inductive LoadError where
  | multiChannelNonMultiBand
deriving DecidableEq, Repr

/-- Model of `load_band_tif` (`dataset.py:355-368`): recover the pickled
tags, read the pixel block (`src.read()` always yields a 3d `(c, h, w)`
array, moved back to `(h, w, c)`), squeeze the channel axis away for
non-`MultiBand` infos (asserting it has length 1), and rebuild the `Band`
through its constructor (so `convert_to_int16` takes its default `True`
and `date_id` its stored value). -/
def load_band_tif (g : GeoTiff) : Except LoadError Band :=
  let bi := g.tags.band_info
  if bi.cls.isMultiBand then
    .ok (Band.init ⟨g.dtype, .d3 g.data3⟩ bi g.tags.spatial_resolution
      g.tags.date g.tags.date_id g.transform g.crs g.tags.meta_info true)
  else
    if chans3 g.data3 = 1 then
      .ok (Band.init ⟨g.dtype, .d2 (squeeze2 g.data3)⟩ bi
        g.tags.spatial_resolution g.tags.date g.tags.date_id g.transform
        g.crs g.tags.meta_info true)
    else
      .error .multiChannelNonMultiBand

/-- Label of a `Sample`: `None`, a raster `Band`, or any other
json-serializable value (modelled opaquely as a string). -/
inductive Label where
  | noLabel
  | band (b : Band)
  | value (v : String)
deriving DecidableEq, Repr

/-- Model of a `Sample` object (`dataset.py`, class `Sample`): the band
list, the label and the sample name.  The index structures built by
`_build_index` are recomputed by the functions below (they are pure
functions of `bands`). -/
structure Sample where
  bands : List Band
  label : Label
  sample_name : String
deriving DecidableEq, Repr

/-- Comparison used when sorting the set of dates in `_make_map`
(`elements.sort()`).  Python cannot compare `None` with a date (mixed
lists raise `TypeError`), so theorems about date ordering assume all
bands carry a date; `none` is placed first to keep the model total. -/
def optDateLe (a b : Option ℕ) : Bool :=
  match a, b with
  | none, _ => true
  | some _, none => false
  | some x, some y => x ≤ y

/-- Ascending-date ordering as a binary relation. -/
def dateLeRel (a b : Option ℕ) : Prop := optDateLe a b = true

instance : DecidableRel dateLeRel :=
  fun a b => inferInstanceAs (Decidable (optDateLe a b = true))

instance : IsTotal (Option ℕ) dateLeRel where
  total := by
    intro a b
    cases a <;> cases b <;> simp [dateLeRel, optDateLe]
    omega

instance : IsTrans (Option ℕ) dateLeRel where
  trans := by
    intro a b c
    cases a <;> cases b <;> cases c <;> simp [dateLeRel, optDateLe]
    omega

/-- Model of `_make_map` applied to the set of dates: the distinct dates,
sorted ascending (`elements.sort()` on the contents of a `set`; a stable
sort, modelled by insertion sort). -/
def sortDates (l : List (Option ℕ)) : List (Option ℕ) :=
  List.insertionSort dateLeRel l

/-- Distinct dates of a sample in ascending order (`self.dates`). -/
def Sample.dates (s : Sample) : List (Option ℕ) :=
  sortDates ((s.bands.map (·.date)).dedup)

/-- Index of a date in `self.dates` (`self.date_map`); `none` models the
`KeyError` of a lookup with an unknown date. -/
def idxOfDate (dates : List (Option ℕ)) (d : Option ℕ) : Option ℕ :=
  dates.findIdx? (fun x => x == d)

/-- Model of `_build_index`'s `band_info_set` (an `OrderedDict` used as an
ordered set, keyed by `BandInfo.__eq__`/`__hash__`): the distinct band
infos in order of first occurrence.  `_map_bands` receives these keys and
does NOT sort them — the `band_info_list.sort()` line is commented out in
the source — so this first-occurrence order is the band axis order. -/
def Sample.band_info_list (s : Sample) : List BandInfo :=
  s.bands.foldl
    (fun acc b => if acc.any (fun bi => bi.beq b.band_info) then acc
                  else acc ++ [b.band_info]) []

/-- Canonical names of the sample's distinct bands (`self.band_names`). -/
def Sample.band_names (s : Sample) : List String :=
  s.band_info_list.map (·.name)

/-- Final binding of a name in `band_name_map`: the map is filled index by
index (`map[info.name] = idx` then `map[alt] = idx` for each alias), so a
name bound by several band infos ends up at the largest such index (the
later assignment overwrites the earlier one). -/
def bandNameIdx (infos : List BandInfo) (nm : String) : Option ℕ :=
  match infos with
  | [] => none
  | bi :: rest =>
    match bandNameIdx rest nm with
    | some k => some (k + 1)
    | none => if bi.possibleNames.contains nm then some 0 else none

/-- Cell `(i, j)` of `self.band_array`: bands are placed one by one at
`(date_map[band.date], band_name_map[band.band_info.name])`, the last
placed band winning a collision. -/
def Sample.gridCell (s : Sample) (i j : ℕ) : Option Band :=
  s.bands.reverse.find? (fun b =>
    idxOfDate s.dates b.date == some i &&
    bandNameIdx s.band_info_list b.band_info.name == some j)

/-- Model of `self.band_array`: the dense `n_dates × n_bands` grid of
optional bands. -/
def Sample.band_array (s : Sample) : List (List (Option Band)) :=
  (List.range s.dates.length).map (fun i =>
    (List.range s.band_info_list.length).map (fun j => s.gridCell i j))

/-- Model of `Sample.get_band_info`:
`self.band_info_list[self.band_name_map[band_name]]` (`none` models the
`KeyError` for an unregistered name). -/
def Sample.get_band_info (s : Sample) (nm : String) : Option BandInfo :=
  (bandNameIdx s.band_info_list nm).bind (fun j => s.band_info_list.get? j)

/-- First two shape components `data.shape[:2]` of an array. -/
def NDData.shape01 : NDData → ℕ × ℕ
  | .d2 rows => (rows.length, (rows.headD []).length)
  | .d3 rows => (rows.length, (rows.headD []).length)

/-- Model of `_largest_shape`: element-wise max of `shape[:2]` over the
present bands of the grid. -/
def largestShape (grid : List (List (Option Band))) : ℕ × ℕ :=
  grid.foldl (fun acc row => row.foldl (fun acc2 cell =>
    match cell with
    | none => acc2
    | some b => (max acc2.1 b.data.nd.shape01.1,
                 max acc2.2 b.data.nd.shape01.2)) acc) (0, 0)

/-- Error kinds surfaced by `Sample.get_band_array`/`pack_to_4d`. -/
inductive PackError where
  /-- raise site `dataset.py:470`: "Missing band ... for date ..., but
  fill_vlaue is None." -/
  | missingBand (name : String) (date : Option ℕ)
  /-- raise site `dataset.py:481`: shape differs from the largest shape and
  `resample` is `False` (the source's f-string itself raises `TypeError`
  when formatting the tuple with `:s`; an exception propagates either
  way). -/
  | shapeMismatch
  /-- `np.concatenate` with inputs of unequal `ndim` ("all the input arrays
  must have the same number of dimensions"). -/
  | concatNdimMismatch
  /-- `np.concatenate(..., axis=2)` on 2d inputs only (`AxisError`). -/
  | axisOutOfBounds
  /-- `np.concatenate` with inputs disagreeing on an off-axis dimension. -/
  | concatShapeMismatch
  /-- `np.concatenate` of an empty list ("need at least one array"). -/
  | emptyConcat
  /-- `KeyError` of `band_name_map`/`date_map` lookups for an explicit
  `dates`/`band_names` selection naming an unknown entry. -/
  | keyError
deriving DecidableEq, Repr

/-- Model of `np.concatenate(data_list, axis=2)` on the model arrays:
all inputs must be 3d (a 2d input among 3d ones is an ndim mismatch; 2d
inputs only make axis 2 out of bounds) and must agree on `(h, w)`; the
channel vectors are concatenated cell-wise. -/
def concat3 (arrs : List NDData) : Except PackError (List (List (List ℚ))) :=
  match arrs with
  | [] => .error .emptyConcat
  | _ =>
    if arrs.all (fun a => match a with | .d3 _ => true | .d2 _ => false) then
      let rows3 := arrs.map (fun a => match a with | .d3 r => r | .d2 _ => [])
      let h0 := height3 (rows3.headD [])
      let w0 := width3 (rows3.headD [])
      if rows3.all (fun r => height3 r == h0 && width3 r == w0) then
        .ok ((List.range h0).map (fun i => (List.range w0).map (fun j =>
          listJoin (rows3.map (fun r => (((r.get? i).getD []).get? j).getD [])))))
      else .error .concatShapeMismatch
    else if arrs.all (fun a => match a with | .d2 _ => true | .d3 _ => false) then
      .error .axisOutOfBounds
    else .error .concatNdimMismatch

/-- Model of `Sample.get_band_array`: sub-select columns by
`band_name_map` lookups and rows by `date_map` lookups; `None` selections
default to all bands / all dates. -/
def Sample.get_band_array (s : Sample) (datesSel : Option (List (Option ℕ)))
    (namesSel : Option (List String)) :
    Except PackError (List (List (Option Band)) × List (Option ℕ) × List String) :=
  let grid0 := s.band_array
  let colStep : Except PackError (List (List (Option Band)) × List String) :=
    match namesSel with
    | some nms =>
      if nms.all (fun nm => (bandNameIdx s.band_info_list nm).isSome) then
        let idxs := nms.map (fun nm => (bandNameIdx s.band_info_list nm).getD 0)
        .ok (grid0.map (fun row => idxs.map (fun j => (row.get? j).getD none)), nms)
      else .error .keyError
    | none => .ok (grid0, s.band_names)
  match colStep with
  | .error e => .error e
  | .ok (grid1, nms) =>
    match datesSel with
    | some ds =>
      if ds.all (fun d => (idxOfDate s.dates d).isSome) then
        let idxs := ds.map (fun d => (idxOfDate s.dates d).getD 0)
        .ok (idxs.map (fun i => (grid1.get? i).getD []), ds, nms)
      else .error .keyError
    | none => .ok (grid1, s.dates, nms)

/-- One cell of the packing loop of `pack_to_4d` (with `resample=False`,
the default used by every settled claim; the `resample=True` branch calls
`scipy.ndimage.zoom`, outside this model): an absent band with a fill
value synthesizes `np.zeros(shape, dtype=np.int16) + fill_value` — note a
2d plane; an absent band without fill raises; a present band is expanded
to 3d and must match the largest shape. -/
def packCell (shape : ℕ × ℕ) (fill_value : Option ℚ) (bandNames : List String)
    (dates : List (Option ℕ)) (i j : ℕ) (cell : Option Band) :
    Except PackError NDData :=
  match cell with
  | none =>
    match fill_value with
    | some v => .ok (.d2 ((List.range shape.1).map (fun _ =>
        (List.range shape.2).map (fun _ => v))))
    | none => .error (.missingBand (bandNames.getD j "") (dates.getD i none))
  | some b =>
    if b.data.nd.shape01 = shape then .ok (.d3 b.data.nd.toD3)
    else .error .shapeMismatch

/-- Sequential processing of one grid row's cells (`data_list`). -/
def packRowCells (shape : ℕ × ℕ) (fill_value : Option ℚ)
    (bandNames : List String) (dates : List (Option ℕ)) (i : ℕ) :
    ℕ → List (Option Band) → Except PackError (List NDData)
  | _, [] => .ok []
  | j, c :: rest => do
    let d ← packCell shape fill_value bandNames dates i j c
    let ds ← packRowCells shape fill_value bandNames dates i (j + 1) rest
    .ok (d :: ds)

/-- Sequential processing of the grid rows (`data_grid`), concatenating
each row's planes along the channel axis. -/
def packRows (shape : ℕ × ℕ) (fill_value : Option ℚ)
    (bandNames : List String) (dates : List (Option ℕ)) :
    ℕ → List (List (Option Band)) →
    Except PackError (List (List (List (List ℚ))))
  | _, [] => .ok []
  | i, row :: rest => do
    let cells ← packRowCells shape fill_value bandNames dates i 0 row
    let plane ← concat3 cells
    let rests ← packRows shape fill_value bandNames dates (i + 1) rest
    .ok (plane :: rests)

/-- Model of `Sample.pack_to_4d` (`dataset.py:431-493`) with
`resample=False` (its default): select the grid, compute the largest
shape, pack every cell row by row, and expand the returned band names via
`get_band_info(name).expand_name()` (those lookups cannot miss for names
that survived `get_band_array`). -/
def Sample.pack_to_4d (s : Sample) (datesSel : Option (List (Option ℕ)))
    (namesSel : Option (List String)) (fill_value : Option ℚ) :
    Except PackError
      (List (List (List (List ℚ))) × List (Option ℕ) × List String) :=
  match s.get_band_array datesSel namesSel with
  | .error e => .error e
  | .ok (grid, dates, bandNames) =>
    let shape := largestShape grid
    match packRows shape fill_value bandNames dates 0 grid with
    | .error e => .error e
    | .ok array4 =>
      let expanded := listJoin (bandNames.map (fun nm =>
        ((s.get_band_info nm).map BandInfo.expand_name).getD []))
      .ok (array4, dates, expanded)

/-- Contents of a file produced by the tif writer. -/
inductive FileContent where
  | tif (g : GeoTiff)
  | bandIndexJson (idx : List (String × List String))
  | labelJson (v : String)
deriving DecidableEq, Repr

/-- File system model: association list from paths to contents; a write to
an existing path overwrites it in place. -/
abbrev FileSystem := List (String × FileContent)

/-- Write (create or overwrite) a file. -/
def fsWrite : FileSystem → String → FileContent → FileSystem
  | [], path, c => [(path, c)]
  | kv :: rest, path, c =>
    if kv.1 = path then (path, c) :: rest else kv :: fsWrite rest path c

/-- Look a path up in the file system. -/
def fsLookup : FileSystem → String → Option FileContent
  | [], _ => none
  | kv :: rest, path => if kv.1 = path then some kv.2 else fsLookup rest path

/-- The band-writing loop of `write_sample_tif`: every band is written to
its geotiff in order (overwriting any earlier file at the same path), and
the written paths are collected (`file_set` is modelled by deduplicating
this list).  A raised write error leaves the files written so far on
disk. -/
def writeBandsLoop (directory : String) :
    List Band → FileSystem → FileSystem × Except WriteError (List String)
  | [], fs => (fs, .ok [])
  | b :: rest, fs =>
    match b.write_to_geotiff directory with
    | .error e => (fs, .error e)
    | .ok g =>
      match writeBandsLoop directory rest (fsWrite fs g.path (.tif g)) with
      | (fs', .ok files) => (fs', .ok (g.path :: files))
      | (fs', .error e) => (fs', .error e)

/-- Model of the `band_index` `OrderedDict` built during the loop of
`write_sample_tif`: canonical band name to the ordered list of file
names. -/
def buildBandIndex (bands : List Band) : List (String × List String) :=
  bands.foldl (fun acc b =>
    let nm := b.band_info.name
    let fn := b.get_descriptor ++ ".tif"
    if acc.any (fun kv => kv.1 == nm) then
      acc.map (fun kv => if kv.1 == nm then (kv.1, kv.2 ++ [fn]) else kv)
    else acc ++ [(nm, [fn])]) []

/-- Model of `write_sample_tif` (`dataset.py:524-555`): write every band's
geotiff into the sample directory, THEN compare `len(file_set)` with
`len(sample.bands)` and raise on a mismatch — the duplicate check runs
only after all bands (including any colliding one) have been written.
On success the band index manifest and the label are written. -/
def write_sample_tif (s : Sample) (dataset_dir : String) (fs : FileSystem) :
    FileSystem × Except WriteError Unit :=
  let dst_dir := dataset_dir ++ "/" ++ s.sample_name
  match writeBandsLoop dst_dir s.bands fs with
  | (fs', .error e) => (fs', .error e)
  | (fs', .ok files) =>
    if files.dedup.length ≠ s.bands.length then (fs', .error .duplicateBand)
    else
      let fs2 := fsWrite fs' (dst_dir ++ "/band_index.json")
        (.bandIndexJson (buildBandIndex s.bands))
      match s.label with
      | .noLabel => (fs2, .ok ())
      | .band lb =>
        if lb.band_info.cls.isLabelType then
          match lb.write_to_geotiff dst_dir with
          | .error e => (fs2, .error e)
          | .ok g => (fsWrite fs2 g.path (.tif g), .ok ())
        else (fs2, .error .labelNotLabelType)
      | .value v =>
        (fsWrite fs2 (dst_dir ++ "/label.json") (.labelJson v), .ok ())

/-- Model of the hdf5 container written by `write_sample_hdf5`: one named
dataset per band plus the pickled attribute dict (per-band attrs are the
same record the tif writer pickles; a non-`Band` label is stored under the
`"label"` key).  Name collisions between datasets (h5py would raise) are
outside the model; no settled claim depends on them. -/
structure Hdf5File where
  path : String
  datasets : List (String × NDArray)
  attr_label : Option Label
  attr_bands : List (String × TifTags)
deriving DecidableEq, Repr

/-- Attribute record pickled per band by `write_sample_hdf5` (same fields
as the geotiff tag). -/
def bandAttrs (b : Band) : TifTags :=
  { date := b.date
    date_id := b.date_id
    spatial_resolution := b.spatial_resolution
    band_info := b.band_info
    meta_info := b.meta_info }

/-- Container contents for a sample in its post-mutation state. -/
def mkHdf5 (dataset_dir : String) (s : Sample) (attr_label : Option Label) :
    Hdf5File :=
  { path := dataset_dir ++ "/" ++ s.sample_name ++ ".hdf5"
    datasets := s.bands.map (fun b => (b.band_info.name, b.data))
    attr_label := attr_label
    attr_bands := s.bands.map (fun b => (b.band_info.name, bandAttrs b)) }

/-- Model of `write_sample_hdf5` (`dataset.py:558-589`).  The local
`bands = sample.bands` aliases the sample's list, so the
`bands.append(sample.label)` executed for a raster label MUTATES the
in-memory sample; the first component of the result is the sample as left
by the call.  A raster label whose `band_info` is not a `LabelType`
raises before the append, leaving the sample untouched. -/
def write_sample_hdf5 (s : Sample) (dataset_dir : String) :
    Sample × Except WriteError Hdf5File :=
  match s.label with
  | .band lb =>
    if lb.band_info.cls.isLabelType then
      let s' := { s with bands := s.bands ++ [lb] }
      (s', .ok (mkHdf5 dataset_dir s' none))
    else (s, .error .labelNotLabelType)
  | .noLabel => (s, .ok (mkHdf5 dataset_dir s none))
  | .value v => (s, .ok (mkHdf5 dataset_dir s (some (.value v))))

/-- Model of a `Partition` object: the split dict in insertion order. -/
structure Partition where
  partition_dict : List (String × List String)
deriving DecidableEq, Repr

/-- Assertion failures of `check_partition_integrity`. -/
inductive IntegrityError where
  /-- assert site `dataset.py:1131`: "Non unique names in split ...". -/
  | nonUniqueNames (split : String)
  /-- assert site `dataset.py:1134`: "Overlap between the different
  subsets." -/
  | overlappingSplits
deriving DecidableEq, Repr

/-- The split loop of `check_partition_integrity`: an empty split only
adds a warning; `len(set(names)) == len(names)` (set size modelled by
`dedup` length) must hold per split; names accumulate into `all_names`. -/
def checkSplitsLoop :
    List (String × List String) → List String → List String →
    Except IntegrityError (List String × List String)
  | [], warnings, all_names => .ok (warnings, all_names)
  | (split, names) :: rest, warnings, all_names =>
    let warnings' :=
      if names.isEmpty then warnings ++ [split ++ " is empty."] else warnings
    if names.dedup.length = names.length then
      checkSplitsLoop rest warnings' (all_names ++ names)
    else .error (.nonUniqueNames split)

/-- Model of `check_partition_integrity` (`dataset.py:1126-1134`):
per-split uniqueness (assert), cross-split disjointness (assert on the
concatenated names), empty splits warned about only.  On success the
accumulated warnings are returned; an assert failure is an error. -/
def check_partition_integrity (p : Partition) :
    Except IntegrityError (List String) :=
  match checkSplitsLoop p.partition_dict [] [] with
  | .error e => .error e
  | .ok (warnings, all_names) =>
    if all_names.dedup.length = all_names.length then .ok warnings
    else .error .overlappingSplits

/-- Alias dictionary built by `Dataset.alt_to_full_names`: insertion
ordered, later insertions overwriting in place. -/
abbrev NameDict := List (String × String)

/-- Insert (or overwrite) one binding. -/
def dictInsert : NameDict → String → String → NameDict
  | [], k, v => [(k, v)]
  | kv :: rest, k, v =>
    if kv.1 = k then (k, v) :: rest else kv :: dictInsert rest k v

/-- Key membership in the alias dictionary. -/
def dictHasKey (d : NameDict) (k : String) : Bool :=
  d.any (fun kv => kv.1 == k)

/-- Register every possible name of a band info as an alias of its
canonical name (the inner `for name in possible_names` loop). -/
def addBandNames (d : NameDict) (bi : BandInfo) : NameDict :=
  bi.possibleNames.foldl (fun acc n => dictInsert acc n bi.name) d

/-- The inner `for band_info in bands_info` loop of `alt_to_full_names`
for one requested name: every band whose possible names contain the
requested name contributes all its names to the dictionary, and the
boolean records whether any band matched. -/
def scanBands (u : String) :
    List BandInfo → NameDict → NameDict × Bool
  | [], d => (d, false)
  | bi :: rest, d =>
    if bi.possibleNames.contains u then
      let r := scanBands u rest (addBandNames d bi)
      (r.1, true)
    else scanBands u rest d

/-- Error raised by `Dataset.alt_to_full_names` (`dataset.py:766`: "The
band ... you specified does not exist in dataset bands ..."; the spec's
§7 kind `UnknownBandError`). -/
inductive DatasetError where
  | unknownBand (name : String)
deriving DecidableEq, Repr

/-- The outer `for user_band_name in band_names` loop: the scan for each
requested name runs over all bands, and the raise fires as soon as a
requested name matched no band. -/
def altLoop (bis : List BandInfo) :
    List String → NameDict → Except DatasetError NameDict
  | [], d => .ok d
  | u :: rest, d =>
    let r := scanBands u bis d
    if r.2 then altLoop bis rest r.1 else .error (.unknownBand u)

/-- Model of `Dataset.alt_to_full_names` (`dataset.py:745-770`), as a
function of the dataset's `task_specs.bands_info` and the requested
names. -/
def alt_to_full_names (bis : List BandInfo) (band_names : List String) :
    Except DatasetError NameDict :=
  altLoop bis band_names []

/-- Path of the geotiff a band writes into a directory
(`Path(directory, f"{self.get_descriptor()}.tif")`). -/
def tifPath (directory : String) (b : Band) : String :=
  directory ++ "/" ++ b.get_descriptor ++ ".tif"

/-- Success test for an `Except` result. -/
def exceptIsOk {ε α : Type} : Except ε α → Bool
  | .ok _ => true
  | .error _ => false

/-- Warnings emitted by the split loop of `check_partition_integrity`
(one per empty split, in split order). -/
def warningsOf : List (String × List String) → List String
  | [] => []
  | (split, names) :: rest =>
    (if names.isEmpty then [split ++ " is empty."] else []) ++ warningsOf rest

/-- Composition `load_band_tif(band.write_to_geotiff(directory))` studied
by the round-trip claim (errors of either stage collapse to `none`). -/
def roundTrip (b : Band) (directory : String) : Option Band :=
  (b.write_to_geotiff directory).toOption.bind
    (fun g => (load_band_tif g).toOption)

/-- Two band infos answering to entirely disjoint name sets (no shared
canonical name or alias). -/
def NameDisjoint (a b : BandInfo) : Prop :=
  ∀ n ∈ a.possibleNames, n ∉ b.possibleNames

instance : DecidableRel NameDisjoint :=
  fun a b => inferInstanceAs (Decidable (∀ n ∈ a.possibleNames, n ∉ b.possibleNames))

/-- Plain (mask-class) band info used by the concrete examples below. -/
def exBandInfo (nm : String) : BandInfo :=
  { cls := .mask, name := nm, alt_names := [], spatial_resolution := some 10,
    wavelength := none, n_bands := none, n_classes := none }

/-- Band over a 2d float array used by the concrete examples below. -/
def exBand (nm : String) (d : Option ℕ) (rows : List (List ℚ)) : Band :=
  Band.init ⟨.float32, .d2 rows⟩ (exBandInfo nm) 10 d none none none none true

/-- Band holding the single pixel `0.6`, in int16 range and outside the
precision-hazard interval `(1e-6, 0.5]`, but not integral. -/
def bandC1cex : Band := exBand "X" (some 7) [[3/5]]

/-- Integral band used to witness the amended round-trip claim. -/
def bandC1wit : Band := exBand "X" (some 7) [[2, -3], [0, 32767]]

/-- Sample whose two bands are supplied in non-alphabetical name order. -/
def sampleC2cex : Sample :=
  { bands := [exBand "B" (some 3) [[1]], exBand "A" (some 3) [[2]]],
    label := .noLabel, sample_name := "s2" }

/-- Same two bands as `sampleC2cex` but supplied in the other order. -/
def sampleC2cexRev : Sample :=
  { bands := [exBand "A" (some 3) [[2]], exBand "B" (some 3) [[1]]],
    label := .noLabel, sample_name := "s2" }

/-- Sample with two dated bands used to witness the amended packing-order
claim. -/
def sampleC2wit : Sample :=
  { bands := [exBand "Y" (some 9) [[1]], exBand "X" (some 3) [[2]],
              exBand "Y" (some 3) [[3]], exBand "X" (some 9) [[4]]],
    label := .noLabel, sample_name := "s2w" }

/-- Band holding both an out-of-range pixel and a precision-hazard pixel:
the range check fires first. -/
def bandC3cex : Band := exBand "X" (some 7) [[40000, 3/10]]

/-- Band holding only the precision-hazard pixel `0.3`. -/
def bandC3hazard : Band := exBand "X" (some 7) [[3/10]]

/-- Band holding the pixel `0.6`, which is persisted as the integer `1`. -/
def bandC3round : Band := exBand "X" (some 7) [[3/5]]

/-- Band holding the out-of-range pixel `40000.0`. -/
def bandC4wit : Band := exBand "X" (some 7) [[40000]]

/-- Sample with band "A" on dates 1 and 2 but band "B" only on date 1:
the `(date 2, "B")` grid cell is absent. -/
def sampleC5bug : Sample :=
  { bands := [exBand "A" (some 1) [[1]], exBand "A" (some 2) [[2]],
              exBand "B" (some 1) [[3]]],
    label := .noLabel, sample_name := "s5" }

/-- Band with `convert_to_int16=False` (its pixel block is persisted
as-is). -/
def exBandRaw (nm : String) (d : Option ℕ) (rows : List (List ℚ)) : Band :=
  Band.init ⟨.float32, .d2 rows⟩ (exBandInfo nm) 10 d none none none none
    false

/-- First of two colliding bands: canonical name "D", date 5, pixels 1. -/
def c6band1 : Band := exBandRaw "D" (some 5) [[1]]

/-- Second colliding band: same name and date, pixels 2. -/
def c6band2 : Band := exBandRaw "D" (some 5) [[2]]

/-- Two distinct bands with the same canonical name and date, hence the
same generated file name. -/
def sampleC6cex : Sample :=
  { bands := [c6band1, c6band2], label := .noLabel, sample_name := "s6" }

/-- Pixel block of a tif file (used to inspect overwritten contents). -/
def FileContent.tifData : FileContent → Option (List (List (List ℚ)))
  | .tif g => some g.data3
  | _ => none

/-- Band info with canonical name "a" and alias "x". -/
def c8biA : BandInfo :=
  { cls := .spectralBand, name := "a", alt_names := ["x"],
    spatial_resolution := some 10, wavelength := some 1, n_bands := none,
    n_classes := none }

/-- Band info with canonical name "b" and no alias. -/
def c8biB : BandInfo :=
  { cls := .spectralBand, name := "b", alt_names := [],
    spatial_resolution := some 10, wavelength := some 2, n_bands := none,
    n_classes := none }

/-- Label-type (segmentation-classes) band usable as a raster label. -/
def c10goodLabel : Band :=
  Band.init ⟨.int16, .d2 [[1]]⟩
    { cls := .segmentationClasses, name := "lab", alt_names := [],
      spatial_resolution := some 10, wavelength := none, n_bands := none,
      n_classes := some 3 }
    10 none none none none none true

/-- Raster label whose band info is NOT a label type. -/
def c10badLabel : Band :=
  Band.init ⟨.int16, .d2 [[1]]⟩ (exBandInfo "lab") 10 none none none none
    none true

/-- Sample with a proper (label-type) raster label. -/
def sampleC10wit : Sample :=
  { bands := [exBand "A" (some 1) [[1]]], label := .band c10goodLabel,
    sample_name := "st" }

/-- Sample whose raster label has a non-label-type band info. -/
def sampleC10cex : Sample :=
  { bands := [exBand "A" (some 1) [[1]]], label := .band c10badLabel,
    sample_name := "st" }

/-- Mask-class band info named "x". -/
def c7infoMask : BandInfo :=
  { cls := .mask, name := "x", alt_names := [], spatial_resolution := some 10,
    wavelength := none, n_bands := none, n_classes := none }

/-- MultiBand-class band info also named "x". -/
def c7infoMulti : BandInfo :=
  { cls := .multiBand, name := "x", alt_names := [],
    spatial_resolution := some 10, wavelength := none, n_bands := some 3,
    n_classes := none }

theorem listJoin_cons {α : Type} (x : List α) (xs : List (List α)) :
    listJoin (x :: xs) = x ++ listJoin xs := rfl

theorem listJoin_eq_flatten {α : Type} (ls : List (List α)) :
    listJoin ls = ls.flatten := by
  induction ls with
  | nil => rfl
  | cons x xs ih => simp [listJoin_cons, ih]

theorem mem_listJoin {α : Type} {a : α} {ls : List (List α)} :
    a ∈ listJoin ls ↔ ∃ l ∈ ls, a ∈ l := by
  rw [listJoin_eq_flatten]
  exact List.mem_flatten

theorem listJoin_append {α : Type} (a b : List (List α)) :
    listJoin (a ++ b) = listJoin a ++ listJoin b := by
  induction a with
  | nil => rfl
  | cons x xs ih => simp [listJoin_cons, ih]

theorem join_map_singleton {α : Type} (r : List α) :
    listJoin (r.map (fun v => [v])) = r := by
  induction r with
  | nil => rfl
  | cons v vs ih => simp [listJoin_cons, ih]

/-- Flattening the values of the 3d view of an array recovers its values:
the channel-axis expansion only re-brackets them. -/
theorem vals_toD3 (nd : NDData) :
    listJoin (listJoin nd.toD3) = nd.vals := by
  cases nd with
  | d3 rows => rfl
  | d2 rows =>
    show listJoin (listJoin (expandDims2 rows)) = listJoin rows
    induction rows with
    | nil => rfl
    | cons r rs ih =>
      simp only [expandDims2, List.map_cons, listJoin_cons, listJoin_append]
        at ih ⊢
      rw [join_map_singleton r, ih]

theorem roundHalfEven_intCast (n : ℤ) : roundHalfEven (n : ℚ) = n := by
  simp only [roundHalfEven, Int.floor_intCast, sub_self]
  norm_num

theorem dedup_length_eq_iff {α : Type} [DecidableEq α] (l : List α) :
    l.dedup.length = l.length ↔ l.Nodup := by
  constructor
  · intro h
    have hs : l.dedup = l := (List.dedup_sublist l).eq_of_length h
    rw [← hs]
    exact List.nodup_dedup l
  · intro h
    rw [List.dedup_eq_self.mpr h]

theorem flatten_sublist_of_sublist {α : Type} {L1 L2 : List (List α)}
    (h : L1.Sublist L2) : L1.flatten.Sublist L2.flatten := by
  induction h with
  | slnil => simp
  | cons l _ ih =>
    rw [List.flatten_cons]
    exact ih.trans (List.sublist_append_right _ _)
  | cons₂ l _ ih =>
    rw [List.flatten_cons, List.flatten_cons]
    exact ih.append_left l

/-- C7 counterexample: the claim "two BandInfo instances compare equal
exactly when their canonical names match" fails across classes — a `Mask`
and a `MultiBand` both named `"x"` have matching canonical names yet
compare unequal, because `__eq__` first requires
`type(other) is type(self)`. -/
theorem c7_counterexample :
    c7infoMask.name = c7infoMulti.name ∧
    BandInfo.beq c7infoMask c7infoMulti = false := by decide

/-- C7 (amended): two BandInfo instances compare equal exactly when their
concrete class AND canonical name both match — all other fields
(wavelength, resolution, class count), including `SpectralBand`'s shadowed
`__key`, are ignored thanks to Python name mangling — while their hashes
match exactly when the canonical names match. -/
theorem c7_eq_and_hash (a b : BandInfo) :
    (BandInfo.beq a b = true ↔ a.cls = b.cls ∧ a.name = b.name) ∧
    (a.hashKey = b.hashKey ↔ a.name = b.name) := by
  constructor
  · simp [BandInfo.beq]
  · simp [BandInfo.hashKey]

/-- When every split's name list is duplicate-free, the split loop
succeeds, emitting one warning per empty split and concatenating all the
names. -/
theorem checkSplitsLoop_ok (l : List (String × List String))
    (w a : List String) (h : ∀ pr ∈ l, pr.2.Nodup) :
    checkSplitsLoop l w a = .ok (w ++ warningsOf l, a ++ listJoin (l.map (·.2))) := by
  induction l generalizing w a with
  | nil => simp [checkSplitsLoop, warningsOf, listJoin]
  | cons pr rest ih =>
    obtain ⟨split, names⟩ := pr
    have h1 : names.Nodup := h _ (List.Mem.head _)
    have h2 : ∀ q ∈ rest, q.2.Nodup := fun q hq => h q (List.Mem.tail _ hq)
    simp only [checkSplitsLoop]
    rw [if_pos ((dedup_length_eq_iff names).mpr h1), ih _ _ h2]
    by_cases hn : names.isEmpty <;>
      simp [hn, warningsOf, listJoin_cons, List.append_assoc]

/-- A split with a repeated name makes the split loop fail. -/
theorem checkSplitsLoop_error (l : List (String × List String))
    (pr : String × List String) (hm : pr ∈ l) (hnd : ¬ pr.2.Nodup)
    (w a : List String) :
    ∃ e, checkSplitsLoop l w a = .error e := by
  induction l generalizing w a with
  | nil => cases hm
  | cons q rest ih =>
    obtain ⟨split, names⟩ := q
    by_cases h1 : names.Nodup
    · have hm' : pr ∈ rest := by
        rcases List.mem_cons.mp hm with h | h
        · rw [h] at hnd
          exact absurd h1 hnd
        · exact h
      simp only [checkSplitsLoop]
      rw [if_pos ((dedup_length_eq_iff names).mpr h1)]
      exact ih hm' _ _
    · refine ⟨.nonUniqueNames split, ?_⟩
      simp only [checkSplitsLoop]
      rw [if_neg (fun hlen => h1 ((dedup_length_eq_iff names).mp hlen))]

/-- Some split of the list is empty, so a warning is emitted. -/
theorem warningsOf_ne_nil (l : List (String × List String))
    (pr : String × List String) (hm : pr ∈ l) (he : pr.2 = []) :
    warningsOf l ≠ [] := by
  induction l with
  | nil => cases hm
  | cons q rest ih =>
    obtain ⟨split, names⟩ := q
    rcases List.mem_cons.mp hm with h | h
    · have : names = [] := by rw [← he, h]
      simp [warningsOf, this]
    · intro hw
      rw [warningsOf] at hw
      exact ih h (List.append_eq_nil.mp hw).2

/-- C9: the integrity check fails when some split repeats a sample name
and when a sample name occurs in two different splits (in both cases the
result is an assertion error), while a partition whose names are globally
unique but which has an empty split passes the check with a warning. -/
theorem c9_partition_integrity (p : Partition) :
    ((∃ pr ∈ p.partition_dict, ¬ pr.2.Nodup) →
      ∃ e, check_partition_integrity p = .error e) ∧
    ((∃ pr1 pr2 x, [pr1, pr2].Sublist p.partition_dict ∧
        x ∈ pr1.2 ∧ x ∈ pr2.2) →
      ∃ e, check_partition_integrity p = .error e) ∧
    ((listJoin (p.partition_dict.map (·.2))).Nodup →
      (∃ pr ∈ p.partition_dict, pr.2 = []) →
      check_partition_integrity p = .ok (warningsOf p.partition_dict) ∧
        warningsOf p.partition_dict ≠ []) := by
  have key : (∃ pr ∈ p.partition_dict, ¬ pr.2.Nodup) →
      ∃ e, check_partition_integrity p = .error e := by
    rintro ⟨pr, hm, hnd⟩
    obtain ⟨e, he⟩ := checkSplitsLoop_error p.partition_dict pr hm hnd [] []
    exact ⟨e, by simp [check_partition_integrity, he]⟩
  refine ⟨key, ?_, ?_⟩
  · rintro ⟨pr1, pr2, x, hsub, hx1, hx2⟩
    by_cases hall : ∀ pr ∈ p.partition_dict, pr.2.Nodup
    · have hloop := checkSplitsLoop_ok p.partition_dict [] [] hall
      have hnj : ¬ (listJoin (p.partition_dict.map (·.2))).Nodup := by
        intro hnd
        have hsub2 : (pr1.2 ++ pr2.2).Sublist
            (listJoin (p.partition_dict.map (·.2))) := by
          rw [listJoin_eq_flatten]
          have h2 := flatten_sublist_of_sublist (hsub.map (·.2))
          simpa using h2
        have hnd2 : (pr1.2 ++ pr2.2).Nodup := hnd.sublist hsub2
        exact (List.disjoint_of_nodup_append hnd2) hx1 hx2
      refine ⟨.overlappingSplits, ?_⟩
      simp only [check_partition_integrity, hloop, List.nil_append]
      rw [if_neg (fun hlen => hnj ((dedup_length_eq_iff _).mp hlen))]
    · push_neg at hall
      exact key hall
  · intro hnd hempty
    have hall : ∀ pr ∈ p.partition_dict, pr.2.Nodup := by
      intro pr hm
      have hmm : pr.2 ∈ p.partition_dict.map (·.2) := List.mem_map_of_mem _ hm
      have hs := List.sublist_flatten_of_mem hmm
      rw [← listJoin_eq_flatten] at hs
      exact hnd.sublist hs
    have hloop := checkSplitsLoop_ok p.partition_dict [] [] hall
    obtain ⟨pr, hm, he⟩ := hempty
    refine ⟨?_, warningsOf_ne_nil _ pr hm he⟩
    simp only [check_partition_integrity, hloop, List.nil_append]
    rw [if_pos ((dedup_length_eq_iff _).mpr hnd)]

/-- C9 witness: on the concrete partition with `"s1"` in train, an empty
valid split and `"s3"` in test, the check passes and emits a warning. -/
theorem c9_witness :
    check_partition_integrity
        ⟨[("train", ["s1"]), ("valid", []), ("test", ["s3"])]⟩ =
      .ok (warningsOf [("train", ["s1"]), ("valid", []), ("test", ["s3"])]) ∧
    warningsOf [("train", ["s1"]), ("valid", []), ("test", ["s3"])] ≠ [] :=
  (c9_partition_integrity
      ⟨[("train", ["s1"]), ("valid", []), ("test", ["s3"])]⟩).2.2
    (by decide) (by decide)

theorem outOfInt16_eq_true (vals : List ℚ) :
    outOfInt16 vals = true ↔ ∃ v ∈ vals, v < -32768 ∨ 32767 < v := by
  simp [outOfInt16]

theorem outOfInt16_eq_false (vals : List ℚ) :
    outOfInt16 vals = false ↔ ∀ v ∈ vals, -32768 ≤ v ∧ v ≤ 32767 := by
  rw [← Bool.not_eq_true, outOfInt16_eq_true]
  constructor
  · intro h v hv
    constructor
    · by_contra hlt
      exact h ⟨v, hv, Or.inl (not_le.mp hlt)⟩
    · by_contra hlt
      exact h ⟨v, hv, Or.inr (not_le.mp hlt)⟩
  · rintro h ⟨v, hv, hc | hc⟩
    · exact absurd hc (not_lt.mpr (h v hv).1)
    · exact absurd hc (not_lt.mpr (h v hv).2)

theorem precisionHazard_eq_true (vals : List ℚ) :
    precisionHazard vals = true ↔ ∃ v ∈ vals, 1/1000000 < v ∧ v ≤ 1/2 := by
  simp [precisionHazard]

theorem precisionHazard_eq_false (vals : List ℚ) :
    precisionHazard vals = false ↔ ∀ v ∈ vals, ¬(1/1000000 < v ∧ v ≤ 1/2) := by
  rw [← Bool.not_eq_true, precisionHazard_eq_true]
  constructor
  · intro h v hv hc
    exact h ⟨v, hv, hc⟩
  · rintro h ⟨v, hv, hc⟩
    exact h v hv hc

/-- C4: under `convert_to_int16` (the default), a band with any pixel
outside `[-32768, 32767]` makes `write_to_geotiff` raise the range error;
since the raise precedes the file creation, no (rounded or otherwise)
data is persisted — the error result carries no file record. -/
theorem c4_range_error (b : Band) (h16 : b.convert_to_int16 = true)
    (hout : ∃ v ∈ b.data.nd.vals, v < -32768 ∨ 32767 < v) (dir : String) :
    b.write_to_geotiff dir = .error .rangeError := by
  have hany : outOfInt16 (listJoin (listJoin b.data.nd.toD3)) = true := by
    rw [vals_toD3]
    exact (outOfInt16_eq_true _).mpr hout
  simp only [Band.write_to_geotiff, h16, hany, if_true, Except.map]

/-- C4 witness: the pixel value 40000.0 triggers the range error. -/
theorem c4_witness :
    bandC4wit.convert_to_int16 = true ∧
    (∃ v ∈ bandC4wit.data.nd.vals, v < -32768 ∨ 32767 < v) ∧
    bandC4wit.write_to_geotiff "dir" = .error .rangeError :=
  ⟨rfl, by decide, c4_range_error bandC4wit rfl (by decide) "dir"⟩

/-- C3 counterexample: the claim says any pixel in `(1e-6, 0.5]` makes
`write_to_geotiff` raise the precision-loss error, but a band holding
both 40000.0 and 0.3 raises the RANGE error instead — the range check
runs before the precision check. -/
theorem c3_counterexample :
    bandC3cex.convert_to_int16 = true ∧
    (∃ v ∈ bandC3cex.data.nd.vals, 1/1000000 < v ∧ v ≤ 1/2) ∧
    bandC3cex.write_to_geotiff "dir" = .error .rangeError ∧
    WriteError.rangeError ≠ WriteError.precisionLossError :=
  ⟨rfl, ⟨3/10, List.Mem.tail _ (List.Mem.head _), by norm_num, by norm_num⟩,
    rfl, by decide⟩

/-- C3 (amended): under `convert_to_int16` and with every pixel already
inside the int16 range, `write_to_geotiff` raises the precision-loss
error exactly when some pixel lies in `(1e-6, 0.5]`; with no pixel in
that interval the write succeeds and persists the pixel block rounded
(half to even) with dtype int16. -/
theorem c3_precision_guard (b : Band) (h16 : b.convert_to_int16 = true)
    (hin : ∀ v ∈ b.data.nd.vals, -32768 ≤ v ∧ v ≤ 32767) :
    ((∃ v ∈ b.data.nd.vals, 1/1000000 < v ∧ v ≤ 1/2) →
      ∀ dir, b.write_to_geotiff dir = .error .precisionLossError) ∧
    ((∀ v ∈ b.data.nd.vals, ¬(1/1000000 < v ∧ v ≤ 1/2)) →
      ∀ dir, ∃ g, b.write_to_geotiff dir = .ok g ∧ g.dtype = .int16 ∧
        g.data3 = roundPixels b.data.nd.toD3) := by
  have hnr : outOfInt16 (listJoin (listJoin b.data.nd.toD3)) = false := by
    rw [vals_toD3]
    exact (outOfInt16_eq_false _).mpr hin
  constructor
  · intro hex dir
    have hp : precisionHazard (listJoin (listJoin b.data.nd.toD3)) = true := by
      rw [vals_toD3]
      exact (precisionHazard_eq_true _).mpr hex
    simp only [Band.write_to_geotiff, h16, hnr, hp, if_true, Bool.false_eq_true,
      if_false, Except.map]
  · intro hall dir
    have hp : precisionHazard (listJoin (listJoin b.data.nd.toD3)) = false := by
      rw [vals_toD3]
      exact (precisionHazard_eq_false _).mpr hall
    simp only [Band.write_to_geotiff, h16, hnr, hp, Bool.false_eq_true,
      if_false, if_true, Except.map]
    exact ⟨_, rfl, rfl, rfl⟩

/-- C3 witness: a band holding only `0.3` (in range) raises the
precision-loss error; a band holding `0.6` writes successfully and its
persisted (rounded int16) pixel block is the integer `1`. -/
theorem c3_witness :
    (∀ v ∈ bandC3hazard.data.nd.vals, -32768 ≤ v ∧ v ≤ 32767) ∧
    (∃ v ∈ bandC3hazard.data.nd.vals, 1/1000000 < v ∧ v ≤ 1/2) ∧
    bandC3hazard.write_to_geotiff "dir" = .error .precisionLossError ∧
    (∃ g, bandC3round.write_to_geotiff "dir" = .ok g ∧ g.dtype = .int16 ∧
      g.data3 = roundPixels bandC3round.data.nd.toD3) ∧
    roundPixels bandC3round.data.nd.toD3 = [[[1]]] := by
  have e1 : bandC3hazard.data.nd.vals = [3/10] := rfl
  have e2 : bandC3round.data.nd.vals = [3/5] := rfl
  have hin1 : ∀ v ∈ bandC3hazard.data.nd.vals, -32768 ≤ v ∧ v ≤ 32767 := by
    rw [e1]
    intro v hv
    rcases List.mem_singleton.mp hv with rfl
    norm_num
  have hin2 : ∀ v ∈ bandC3round.data.nd.vals, -32768 ≤ v ∧ v ≤ 32767 := by
    rw [e2]
    intro v hv
    rcases List.mem_singleton.mp hv with rfl
    norm_num
  have hex : ∃ v ∈ bandC3hazard.data.nd.vals, 1/1000000 < v ∧ v ≤ 1/2 := by
    rw [e1]
    exact ⟨3/10, List.mem_singleton.mpr rfl, by norm_num, by norm_num⟩
  have hall : ∀ v ∈ bandC3round.data.nd.vals, ¬(1/1000000 < v ∧ v ≤ 1/2) := by
    rw [e2]
    intro v hv
    rcases List.mem_singleton.mp hv with rfl
    norm_num
  have hone : roundPixels bandC3round.data.nd.toD3 = [[[1]]] := by
    show [[[((roundHalfEven (3/5) : ℤ) : ℚ)]]] = [[[1]]]
    norm_num [roundHalfEven, Int.fract]
  exact ⟨hin1, hex, (c3_precision_guard bandC3hazard rfl hin1).1 hex "dir",
    (c3_precision_guard bandC3round rfl hin2).2 hall "dir", hone⟩

theorem int_not_hazard (n : ℤ) :
    ¬(1/1000000 < (n : ℚ) ∧ (n : ℚ) ≤ 1/2) := by
  rintro ⟨h1, h2⟩
  have h0 : (0 : ℚ) < (n : ℚ) := lt_trans (by norm_num) h1
  have hn : 0 < n := by exact_mod_cast h0
  have hge : (1 : ℚ) ≤ (n : ℚ) := by exact_mod_cast hn
  linarith

theorem map_members_id {α : Type} (l : List α) (f : α → α)
    (h : ∀ x ∈ l, f x = x) : l.map f = l := by
  calc l.map f = l.map id := List.map_congr_left h
  _ = l := List.map_id l

theorem map3_congr_id (rows3 : List (List (List ℚ))) (f : ℚ → ℚ)
    (h : ∀ v ∈ listJoin (listJoin rows3), f v = v) :
    map3 f rows3 = rows3 := by
  unfold map3
  apply map_members_id
  intro r hr
  apply map_members_id
  intro c hc
  apply map_members_id
  intro v hv
  exact h v (mem_listJoin.mpr ⟨c, mem_listJoin.mpr ⟨r, hr, hc⟩, hv⟩)

theorem squeeze2_expandDims2 (rows : List (List ℚ)) :
    squeeze2 (expandDims2 rows) = rows := by
  unfold squeeze2 expandDims2
  rw [List.map_map]
  apply map_members_id
  intro r _
  show ((r.map fun v => [v]).map fun cell => cell.headD 0) = r
  rw [List.map_map]
  exact map_members_id r _ (fun v _ => rfl)

/-- C1 (amended): for a band with 2d data, a non-MultiBand band info and
`convert_to_int16` left at its default, whose pixel values are INTEGERS
inside `[-32768, 32767]` (integrality also rules the hazard interval
`(1e-6, 0.5]` out), loading the geotiff written by `write_to_geotiff`
reproduces the pixel data exactly, along with the date, the spatial
resolution and the band info's canonical name.  (For non-integral values
the loaded data comes back rounded — see the counterexample — and for 3d
non-MultiBand or 2d MultiBand data the array rank changes.) -/
theorem c1_roundtrip (b : Band) (rows : List (List ℚ))
    (hd : b.data.nd = .d2 rows) (hnm : b.band_info.cls.isMultiBand = false)
    (h16 : b.convert_to_int16 = true)
    (hne1 : rows ≠ []) (hne2 : rows.headD [] ≠ [])
    (hint : ∀ v ∈ b.data.nd.vals, ∃ n : ℤ, v = (n : ℚ))
    (hrange : ∀ v ∈ b.data.nd.vals, -32768 ≤ v ∧ v ≤ 32767) (dir : String) :
    ∃ b', roundTrip b dir = some b' ∧
      b'.data.nd = b.data.nd ∧ b'.date = b.date ∧
      b'.spatial_resolution = b.spatial_resolution ∧
      b'.band_info.name = b.band_info.name := by
  have htoD3 : b.data.nd.toD3 = expandDims2 rows := by
    rw [hd]
    rfl
  have hnr : outOfInt16 (listJoin (listJoin b.data.nd.toD3)) = false := by
    rw [vals_toD3]
    exact (outOfInt16_eq_false _).mpr hrange
  have hp : precisionHazard (listJoin (listJoin b.data.nd.toD3)) = false := by
    rw [vals_toD3]
    apply (precisionHazard_eq_false _).mpr
    intro v hv hc
    obtain ⟨n, rfl⟩ := hint v hv
    exact int_not_hazard n hc
  have hround : roundPixels b.data.nd.toD3 = b.data.nd.toD3 := by
    apply map3_congr_id
    intro v hv
    rw [vals_toD3] at hv
    obtain ⟨n, rfl⟩ := hint v hv
    rw [roundHalfEven_intCast]
  rw [htoD3] at hnr hp hround
  have hch : chans3 (expandDims2 rows) = 1 := by
    cases rows with
    | nil => exact absurd rfl hne1
    | cons r0 rs =>
      cases r0 with
      | nil => exact absurd rfl hne2
      | cons v vt => rfl
  have hw : b.write_to_geotiff dir = .ok
      { path := dir ++ "/" ++ b.get_descriptor ++ ".tif"
        height := height3 (expandDims2 rows)
        width := width3 (expandDims2 rows)
        count := chans3 (expandDims2 rows)
        dtype := .int16
        crs := b.crs
        transform := b.transform
        tags := { date := b.date, date_id := b.date_id,
                  spatial_resolution := b.spatial_resolution,
                  band_info := b.band_info, meta_info := b.meta_info }
        nodata := 0
        data3 := expandDims2 rows
        band_descriptions :=
          bandDescriptions (chans3 (expandDims2 rows)) b.band_info.name } := by
    simp only [Band.write_to_geotiff, h16, htoD3, hnr, hp,
      Bool.false_eq_true, if_false, if_true, Except.map, hround]
  have hl : load_band_tif
      { path := dir ++ "/" ++ b.get_descriptor ++ ".tif"
        height := height3 (expandDims2 rows)
        width := width3 (expandDims2 rows)
        count := chans3 (expandDims2 rows)
        dtype := .int16
        crs := b.crs
        transform := b.transform
        tags := { date := b.date, date_id := b.date_id,
                  spatial_resolution := b.spatial_resolution,
                  band_info := b.band_info, meta_info := b.meta_info }
        nodata := 0
        data3 := expandDims2 rows
        band_descriptions :=
          bandDescriptions (chans3 (expandDims2 rows)) b.band_info.name } =
      .ok (Band.init ⟨.int16, .d2 rows⟩ b.band_info b.spatial_resolution
        b.date b.date_id b.transform b.crs b.meta_info true) := by
    simp only [load_band_tif, hnm, Bool.false_eq_true, if_false, hch,
      if_true, squeeze2_expandDims2]
  have hrt : roundTrip b dir = some (Band.init ⟨.int16, .d2 rows⟩
      b.band_info b.spatial_resolution b.date b.date_id b.transform b.crs
      b.meta_info true) := by
    rw [roundTrip, hw]
    simp only [Except.toOption, Option.bind]
    rw [hl]
  refine ⟨_, hrt, ?_, rfl, rfl, rfl⟩
  rw [hd]
  rfl

theorem squeeze2_map3_expandDims2 (f : ℚ → ℚ) (rows : List (List ℚ)) :
    squeeze2 (map3 f (expandDims2 rows)) = rows.map (fun r => r.map f) := by
  simp [squeeze2, map3, expandDims2, List.map_map, Function.comp]

theorem chans3_map3_expandDims2 (f : ℚ → ℚ) (rows : List (List ℚ))
    (h1 : rows ≠ []) (h2 : rows.headD [] ≠ []) :
    chans3 (map3 f (expandDims2 rows)) = 1 := by
  cases rows with
  | nil => exact absurd rfl h1
  | cons r0 rs =>
    cases r0 with
    | nil => exact absurd rfl h2
    | cons v vt => rfl

/-- Full evaluation of `load_band_tif ∘ write_to_geotiff` on a 2d
non-MultiBand band whose values pass both conversion checks: the loaded
band carries the original metadata and the pixel data rounded half to
even. -/
theorem roundTrip_eq (b : Band) (rows : List (List ℚ))
    (hd : b.data.nd = .d2 rows) (hnm : b.band_info.cls.isMultiBand = false)
    (h16 : b.convert_to_int16 = true)
    (hne1 : rows ≠ []) (hne2 : rows.headD [] ≠ [])
    (hnr : outOfInt16 (listJoin rows) = false)
    (hp : precisionHazard (listJoin rows) = false) (dir : String) :
    roundTrip b dir = some (Band.init
      ⟨.int16, .d2 (rows.map (fun r =>
        r.map (fun v => ((roundHalfEven v : ℤ) : ℚ))))⟩
      b.band_info b.spatial_resolution b.date b.date_id b.transform b.crs
      b.meta_info true) := by
  have htoD3 : b.data.nd.toD3 = expandDims2 rows := by
    rw [hd]
    rfl
  have hvals : listJoin (listJoin (expandDims2 rows)) = listJoin rows := by
    have h := vals_toD3 (NDData.d2 rows)
    simpa [NDData.toD3, NDData.vals] using h
  have hnr' : outOfInt16 (listJoin (listJoin (expandDims2 rows))) = false := by
    rw [hvals]
    exact hnr
  have hp' : precisionHazard (listJoin (listJoin (expandDims2 rows))) = false := by
    rw [hvals]
    exact hp
  have hch : chans3 (roundPixels (expandDims2 rows)) = 1 :=
    chans3_map3_expandDims2 _ rows hne1 hne2
  have hsq : squeeze2 (roundPixels (expandDims2 rows)) =
      rows.map (fun r => r.map (fun v => ((roundHalfEven v : ℤ) : ℚ))) :=
    squeeze2_map3_expandDims2 _ rows
  have hw : b.write_to_geotiff dir = .ok
      { path := dir ++ "/" ++ b.get_descriptor ++ ".tif"
        height := height3 (roundPixels (expandDims2 rows))
        width := width3 (roundPixels (expandDims2 rows))
        count := chans3 (roundPixels (expandDims2 rows))
        dtype := .int16
        crs := b.crs
        transform := b.transform
        tags := { date := b.date, date_id := b.date_id,
                  spatial_resolution := b.spatial_resolution,
                  band_info := b.band_info, meta_info := b.meta_info }
        nodata := 0
        data3 := roundPixels (expandDims2 rows)
        band_descriptions :=
          bandDescriptions (chans3 (roundPixels (expandDims2 rows)))
            b.band_info.name } := by
    simp only [Band.write_to_geotiff, h16, htoD3, hnr', hp',
      Bool.false_eq_true, if_false, if_true, Except.map]
  have hrt : roundTrip b dir = (load_band_tif
      { path := dir ++ "/" ++ b.get_descriptor ++ ".tif"
        height := height3 (roundPixels (expandDims2 rows))
        width := width3 (roundPixels (expandDims2 rows))
        count := chans3 (roundPixels (expandDims2 rows))
        dtype := .int16
        crs := b.crs
        transform := b.transform
        tags := { date := b.date, date_id := b.date_id,
                  spatial_resolution := b.spatial_resolution,
                  band_info := b.band_info, meta_info := b.meta_info }
        nodata := 0
        data3 := roundPixels (expandDims2 rows)
        band_descriptions :=
          bandDescriptions (chans3 (roundPixels (expandDims2 rows)))
            b.band_info.name }).toOption := by
    rw [roundTrip, hw]
    simp only [Except.toOption, Option.bind]
  rw [hrt]
  simp only [load_band_tif, hnm, Bool.false_eq_true, if_false, hch, if_true,
    hsq, Except.toOption]

/-- C1 counterexample: the band holding the single pixel `0.6` satisfies
the claim's hypotheses (values in `[-32768, 32767]`, none in
`(1e-6, 0.5]`), yet the loaded band's pixel data is the integer `1`, not
`0.6` — int16 quantization makes the round trip lossy for non-integral
values. -/
theorem c1_counterexample :
    bandC1cex.convert_to_int16 = true ∧
    (∀ v ∈ bandC1cex.data.nd.vals, -32768 ≤ v ∧ v ≤ 32767) ∧
    (∀ v ∈ bandC1cex.data.nd.vals, ¬(1/1000000 < v ∧ v ≤ 1/2)) ∧
    (roundTrip bandC1cex "dir").map (fun b' => b'.data.nd) =
      some (.d2 [[1]]) ∧
    bandC1cex.data.nd ≠ .d2 [[1]] := by
  have e : bandC1cex.data.nd.vals = [3/5] := rfl
  have e2 : listJoin [[(3:ℚ)/5]] = [3/5] := rfl
  have hin : ∀ v ∈ bandC1cex.data.nd.vals, -32768 ≤ v ∧ v ≤ 32767 := by
    rw [e]
    intro v hv
    rcases List.mem_singleton.mp hv with rfl
    norm_num
  have hhaz : ∀ v ∈ bandC1cex.data.nd.vals, ¬(1/1000000 < v ∧ v ≤ 1/2) := by
    rw [e]
    intro v hv
    rcases List.mem_singleton.mp hv with rfl
    norm_num
  have hnr : outOfInt16 (listJoin [[(3:ℚ)/5]]) = false := by
    apply (outOfInt16_eq_false _).mpr
    rw [e2]
    intro v hv
    rcases List.mem_singleton.mp hv with rfl
    norm_num
  have hp : precisionHazard (listJoin [[(3:ℚ)/5]]) = false := by
    apply (precisionHazard_eq_false _).mpr
    rw [e2]
    intro v hv
    rcases List.mem_singleton.mp hv with rfl
    norm_num
  have h := roundTrip_eq bandC1cex [[3/5]] rfl rfl rfl
    (List.cons_ne_nil _ _) (List.cons_ne_nil _ _) hnr hp "dir"
  have hround : ([[(3:ℚ)/5]].map (fun r =>
      r.map (fun v => ((roundHalfEven v : ℤ) : ℚ)))) = [[1]] := by
    show [[((roundHalfEven ((3:ℚ)/5) : ℤ) : ℚ)]] = [[1]]
    norm_num [roundHalfEven, Int.fract]
  refine ⟨rfl, hin, hhaz, ?_, ?_⟩
  · rw [h]
    show some (NDData.d2 ([[(3:ℚ)/5]].map (fun r =>
      r.map (fun v => ((roundHalfEven v : ℤ) : ℚ))))) = some (NDData.d2 [[1]])
    rw [hround]
  · show NDData.d2 [[(3:ℚ)/5]] ≠ NDData.d2 [[1]]
    simp only [ne_eq, NDData.d2.injEq, List.cons.injEq, and_true]
    norm_num

/-- C1 witness: an integral 2×2 band round-trips with identical pixel
data, date, resolution and band name. -/
theorem c1_witness :
    bandC1wit.data.nd = NDData.d2 [[2, -3], [0, 32767]] ∧
    bandC1wit.band_info.cls.isMultiBand = false ∧
    bandC1wit.convert_to_int16 = true ∧
    (∀ v ∈ bandC1wit.data.nd.vals, ∃ n : ℤ, v = (n : ℚ)) ∧
    (∀ v ∈ bandC1wit.data.nd.vals, -32768 ≤ v ∧ v ≤ 32767) ∧
    (∃ b', roundTrip bandC1wit "dir" = some b' ∧
      b'.data.nd = bandC1wit.data.nd ∧ b'.date = bandC1wit.date ∧
      b'.spatial_resolution = bandC1wit.spatial_resolution ∧
      b'.band_info.name = bandC1wit.band_info.name) := by
  have e : bandC1wit.data.nd.vals = [2, -3, 0, 32767] := rfl
  have hint : ∀ v ∈ bandC1wit.data.nd.vals, ∃ n : ℤ, v = (n : ℚ) := by
    rw [e]
    intro v hv
    fin_cases hv
    · exact ⟨2, by norm_num⟩
    · exact ⟨-3, by norm_num⟩
    · exact ⟨0, by norm_num⟩
    · exact ⟨32767, by norm_num⟩
  have hrange : ∀ v ∈ bandC1wit.data.nd.vals, -32768 ≤ v ∧ v ≤ 32767 := by
    rw [e]
    intro v hv
    fin_cases hv <;> norm_num
  exact ⟨rfl, rfl, rfl, hint, hrange,
    c1_roundtrip bandC1wit [[2, -3], [0, 32767]] rfl rfl rfl
      (List.cons_ne_nil _ _) (List.cons_ne_nil _ _) hint hrange "dir"⟩

/-- C10 (amended): `write_sample_hdf5` mutates its input exactly when the
label is a raster `Band` whose `band_info` is a label type: the label is
appended to the in-memory sample's `bands` list (the local `bands`
aliases it), leaving one more element than before.  A raster label whose
`band_info` is NOT a label type raises before the append, leaving the
sample untouched, and a non-`Band` label leaves the bands list
unchanged. -/
theorem c10_hdf5_mutation (s : Sample) (dir : String) :
    (∀ lb, s.label = .band lb → lb.band_info.cls.isLabelType = true →
      (write_sample_hdf5 s dir).1.bands = s.bands ++ [lb] ∧
      (write_sample_hdf5 s dir).1.bands.length = s.bands.length + 1) ∧
    (∀ lb, s.label = .band lb → lb.band_info.cls.isLabelType = false →
      (write_sample_hdf5 s dir).1 = s ∧
      (write_sample_hdf5 s dir).2 = .error .labelNotLabelType) ∧
    ((∀ lb, s.label ≠ .band lb) → (write_sample_hdf5 s dir).1 = s) := by
  refine ⟨?_, ?_, ?_⟩
  · intro lb hl ht
    simp only [write_sample_hdf5, hl, ht, if_true]
    simp
  · intro lb hl ht
    simp only [write_sample_hdf5, hl, ht, Bool.false_eq_true, if_false]
    simp
  · intro h
    cases hl : s.label with
    | noLabel => simp only [write_sample_hdf5, hl]
    | band lb => exact absurd hl (h lb)
    | value v => simp only [write_sample_hdf5, hl]

/-- C10 counterexample: a Sample whose label is a Band with a
non-label-type band info is NOT mutated — the write raises first and the
bands list keeps its length. -/
theorem c10_counterexample :
    sampleC10cex.label = .band c10badLabel ∧
    (write_sample_hdf5 sampleC10cex "dir").1.bands.length =
      sampleC10cex.bands.length ∧
    (write_sample_hdf5 sampleC10cex "dir").2 = .error .labelNotLabelType :=
  ⟨rfl, rfl, rfl⟩

/-- C10 witness: with a segmentation-classes label band the call appends
the label to the sample's bands list. -/
theorem c10_witness :
    sampleC10wit.label = .band c10goodLabel ∧
    c10goodLabel.band_info.cls.isLabelType = true ∧
    (write_sample_hdf5 sampleC10wit "dir").1.bands =
      sampleC10wit.bands ++ [c10goodLabel] ∧
    (write_sample_hdf5 sampleC10wit "dir").1.bands.length =
      sampleC10wit.bands.length + 1 :=
  ⟨rfl, rfl, ((c10_hdf5_mutation sampleC10wit "dir").1 c10goodLabel rfl rfl).1,
    ((c10_hdf5_mutation sampleC10wit "dir").1 c10goodLabel rfl rfl).2⟩

/-- C5: claim right, code wrong.  On the sample whose `(date 2, "B")`
grid cell is absent, `pack_to_4d` with `fill_value=None` raises the
missing-band error as the claim says, but with `fill_value=0` it does NOT
return a zero plane: the synthesized `np.zeros(shape, dtype=np.int16) +
fill_value` plane is 2-dimensional while every present band is expanded
to 3 dimensions, so `np.concatenate(..., axis=2)` raises a
dimension-mismatch error.  The docstring ("Fills missing bands with this
value") documents the intended and specified behavior. -/
theorem c5_fill_value_bug :
    sampleC5bug.pack_to_4d none none (some 0) =
      .error .concatNdimMismatch ∧
    sampleC5bug.pack_to_4d none none none =
      .error (.missingBand "B" (some 2)) :=
  ⟨rfl, rfl⟩

/-- A successful geotiff write lands at `directory/descriptor.tif`. -/
theorem write_to_geotiff_path (b : Band) (dir : String) (g : GeoTiff)
    (h : b.write_to_geotiff dir = .ok g) : g.path = tifPath dir b := by
  simp only [Band.write_to_geotiff, Except.map] at h
  split at h
  · exact absurd h (by simp)
  · injection h with h2
    rw [← h2]
    rfl

theorem fsLookup_fsWrite (fs : FileSystem) (p q : String) (c : FileContent) :
    fsLookup (fsWrite fs p c) q = if q = p then some c else fsLookup fs q := by
  induction fs with
  | nil =>
    by_cases h : q = p <;> subst_eqs <;> simp_all [fsWrite, fsLookup]
    exact fun hc => h hc.symm
  | cons kv rest ih =>
    by_cases h1 : kv.1 = p <;> by_cases h2 : q = p <;>
      by_cases h3 : kv.1 = q <;> subst_eqs <;>
      simp_all [fsWrite, fsLookup]

/-- A path present in the file system stays present through the band
loop (later writes can only overwrite contents, not delete files). -/
theorem writeBandsLoop_preserves (dir : String) (bands : List Band)
    (fs : FileSystem) (p : String) (h : (fsLookup fs p).isSome = true) :
    (fsLookup (writeBandsLoop dir bands fs).1 p).isSome = true := by
  induction bands generalizing fs with
  | nil => exact h
  | cons b rest ih =>
    simp only [writeBandsLoop]
    cases hw : b.write_to_geotiff dir with
    | error e => exact h
    | ok g =>
      dsimp only
      have hpres : (fsLookup (fsWrite fs g.path (.tif g)) p).isSome = true := by
        rw [fsLookup_fsWrite]
        by_cases hpq : p = g.path <;> simp [hpq, h]
      have hrec := ih (fsWrite fs g.path (.tif g)) hpres
      cases hloop : writeBandsLoop dir rest (fsWrite fs g.path (.tif g)) with
      | mk fs' r =>
        rw [hloop] at hrec
        cases r <;> simpa using hrec

/-- When every band's write succeeds, the loop returns the list of
written paths and leaves a file at every band's path. -/
theorem writeBandsLoop_ok (dir : String) (bands : List Band)
    (fs : FileSystem)
    (h : ∀ b ∈ bands, exceptIsOk (b.write_to_geotiff dir) = true) :
    (writeBandsLoop dir bands fs).2 = .ok (bands.map (tifPath dir)) ∧
    ∀ b ∈ bands,
      (fsLookup (writeBandsLoop dir bands fs).1 (tifPath dir b)).isSome = true := by
  induction bands generalizing fs with
  | nil =>
    refine ⟨rfl, ?_⟩
    intro b hb
    cases hb
  | cons b rest ih =>
    have hb := h b (List.Mem.head _)
    cases hw : b.write_to_geotiff dir with
    | error e =>
      rw [hw] at hb
      exact absurd hb (by simp [exceptIsOk])
    | ok g =>
      have hpath : g.path = tifPath dir b := write_to_geotiff_path b dir g hw
      obtain ⟨h1, h2⟩ := ih (fsWrite fs g.path (.tif g))
        (fun b' hb' => h b' (List.Mem.tail _ hb'))
      simp only [writeBandsLoop, hw]
      cases hloop : writeBandsLoop dir rest (fsWrite fs g.path (.tif g)) with
      | mk fs' r =>
        rw [hloop] at h1 h2
        simp only at h1
        subst h1
        refine ⟨by simp [hpath], ?_⟩
        intro b' hb'
        rcases List.mem_cons.mp hb' with hb1 | hb1
        · subst hb1
          have hstart : (fsLookup (fsWrite fs g.path (.tif g)) (tifPath dir b')).isSome = true := by
            rw [fsLookup_fsWrite, ← hpath]
            simp
          have := writeBandsLoop_preserves dir rest
            (fsWrite fs g.path (.tif g)) (tifPath dir b') hstart
          rw [hloop] at this
          simpa using this
        · simpa using h2 b' hb1

/-- C6 (amended): when two distinct bands of a sample generate the same
file name (same canonical name and date), `write_sample_tif` does fail
with the duplicate-band error — but only AFTER writing every band, since
the `len(file_set) != len(sample.bands)` check runs after the loop; the
colliding file has already been overwritten by the later band when the
error is raised (every band's path exists on disk at that point). -/
theorem c6_duplicate_overwrite (s : Sample) (dataset_dir : String)
    (fs : FileSystem)
    (hok : ∀ b ∈ s.bands,
      exceptIsOk (b.write_to_geotiff (dataset_dir ++ "/" ++ s.sample_name)) = true)
    (hdup : ¬ (s.bands.map (tifPath (dataset_dir ++ "/" ++ s.sample_name))).Nodup) :
    (write_sample_tif s dataset_dir fs).2 = .error .duplicateBand ∧
    ∀ b ∈ s.bands,
      (fsLookup (write_sample_tif s dataset_dir fs).1
        (tifPath (dataset_dir ++ "/" ++ s.sample_name) b)).isSome = true := by
  obtain ⟨h1, h2⟩ :=
    writeBandsLoop_ok (dataset_dir ++ "/" ++ s.sample_name) s.bands fs hok
  simp only [write_sample_tif]
  cases hloop : writeBandsLoop (dataset_dir ++ "/" ++ s.sample_name) s.bands fs with
  | mk fs' r =>
    rw [hloop] at h1 h2
    simp only at h1 h2
    subst h1
    have hne : (s.bands.map
        (tifPath (dataset_dir ++ "/" ++ s.sample_name))).dedup.length ≠
        s.bands.length := by
      intro hEq
      apply hdup
      apply (dedup_length_eq_iff _).mp
      rw [hEq, List.length_map]
    dsimp only
    rw [if_pos hne]
    exact ⟨rfl, h2⟩

/-- C6 counterexample: two distinct bands named "D" at date 5 collide on
`s6/D_5.tif`; `write_sample_tif` raises the duplicate error, yet the
single file on disk holds the SECOND band's pixels (2), though the first
band (pixels 1) wrote the same path (and nothing else) first — the first
band's file was overwritten before the error was raised. -/
theorem c6_counterexample :
    (write_sample_tif sampleC6cex "root" []).2 = .error .duplicateBand ∧
    (write_sample_tif sampleC6cex "root" []).1.map Prod.fst =
      ["root/s6/D_5.tif"] ∧
    ((fsLookup (write_sample_tif sampleC6cex "root" []).1
      "root/s6/D_5.tif").bind FileContent.tifData) = some [[[2]]] ∧
    (c6band1.write_to_geotiff "root/s6").map
      (fun g => (g.path, g.data3)) = .ok ("root/s6/D_5.tif", [[[1]]]) ∧
    c6band1 ≠ c6band2 :=
  ⟨rfl, rfl, rfl, rfl, by decide⟩

/-- C6 witness: the amended theorem applied to the concrete colliding
sample — the write errors out and the colliding path is on disk. -/
theorem c6_witness :
    (∀ b ∈ sampleC6cex.bands,
      exceptIsOk (b.write_to_geotiff ("root" ++ "/" ++ sampleC6cex.sample_name)) = true) ∧
    (¬ (sampleC6cex.bands.map
      (tifPath ("root" ++ "/" ++ sampleC6cex.sample_name))).Nodup) ∧
    (write_sample_tif sampleC6cex "root" []).2 = .error .duplicateBand ∧
    (∀ b ∈ sampleC6cex.bands,
      (fsLookup (write_sample_tif sampleC6cex "root" []).1
        (tifPath ("root" ++ "/" ++ sampleC6cex.sample_name) b)).isSome = true) :=
  ⟨by decide, by decide,
    (c6_duplicate_overwrite sampleC6cex "root" [] (by decide) (by decide)).1,
    (c6_duplicate_overwrite sampleC6cex "root" [] (by decide) (by decide)).2⟩

theorem possibleNames_contains_self (bi : BandInfo) :
    bi.possibleNames.contains bi.name = true := by
  simp [BandInfo.possibleNames]

theorem sampleDates_sorted (s : Sample) : List.Sorted dateLeRel s.dates :=
  List.sorted_insertionSort dateLeRel _

theorem bandNameIdx_none (infos : List BandInfo) (nm : String)
    (h : ∀ bi ∈ infos, bi.possibleNames.contains nm = false) :
    bandNameIdx infos nm = none := by
  induction infos with
  | nil => rfl
  | cons bi rest ih =>
    simp only [bandNameIdx, ih (fun x hx => h x (List.Mem.tail _ hx)),
      h bi (List.Mem.head _), Bool.false_eq_true, if_false]

theorem bandNameIdx_last (pre : List BandInfo) (bi : BandInfo)
    (post : List BandInfo) (nm : String)
    (hbi : bi.possibleNames.contains nm = true)
    (hpost : ∀ x ∈ post, x.possibleNames.contains nm = false) :
    bandNameIdx (pre ++ bi :: post) nm = some pre.length := by
  induction pre with
  | nil =>
    simp only [List.nil_append, bandNameIdx, bandNameIdx_none post nm hpost,
      hbi, if_true, List.length_nil]
  | cons p pre' ih =>
    simp only [List.cons_append, bandNameIdx, List.append_eq, ih,
      List.length_cons]

theorem get_band_info_eq (s : Sample) (pre post : List BandInfo)
    (bi : BandInfo) (hdec : s.band_info_list = pre ++ bi :: post)
    (hpost : ∀ x ∈ post, x.possibleNames.contains bi.name = false) :
    s.get_band_info bi.name = some bi := by
  unfold Sample.get_band_info
  rw [hdec, bandNameIdx_last pre bi post bi.name
    (possibleNames_contains_self bi) hpost]
  dsimp only [Option.bind]
  rw [List.get?_eq_getElem?, List.getElem?_append_right (Nat.le_refl _)]
  simp

theorem expanded_names_of_disjoint (s : Sample)
    (H : s.band_info_list.Pairwise NameDisjoint) :
    listJoin (s.band_names.map (fun nm =>
      ((s.get_band_info nm).map BandInfo.expand_name).getD [])) =
    listJoin (s.band_info_list.map BandInfo.expand_name) := by
  unfold Sample.band_names
  rw [List.map_map]
  congr 1
  apply List.map_congr_left
  intro bi hbi
  obtain ⟨pre, post, hdec⟩ := List.append_of_mem hbi
  have hpost : ∀ x ∈ post, x.possibleNames.contains bi.name = false := by
    rw [hdec] at H
    have hrel := (List.pairwise_cons.mp (List.pairwise_append.mp H).2.1).1
    intro x hx
    have hnot : bi.name ∉ x.possibleNames :=
      hrel x hx bi.name (by simp [BandInfo.possibleNames])
    simpa using hnot
  show ((s.get_band_info bi.name).map BandInfo.expand_name).getD [] =
    BandInfo.expand_name bi
  rw [get_band_info_eq s pre post bi hdec hpost]
  rfl

/-- On the default selection (no date or band subset), a successful
`pack_to_4d` returns the sample's sorted date index and the band names
expanded through `get_band_info`. -/
theorem pack_to_4d_default_shape (s : Sample) (f : Option ℚ)
    (r : List (List (List (List ℚ))) × List (Option ℕ) × List String)
    (hok : s.pack_to_4d none none f = .ok r) :
    r.2.1 = s.dates ∧
    r.2.2 = listJoin (s.band_names.map (fun nm =>
      ((s.get_band_info nm).map BandInfo.expand_name).getD [])) := by
  unfold Sample.pack_to_4d Sample.get_band_array at hok
  dsimp only at hok
  cases hpack : packRows (largestShape s.band_array) f s.band_names s.dates
      0 s.band_array with
  | error e =>
    rw [hpack] at hok
    exact absurd hok (by simp)
  | ok a4 =>
    rw [hpack] at hok
    injection hok with hok2
    rw [← hok2]
    exact ⟨rfl, rfl⟩

/-- C2 (amended): a successful default `pack_to_4d` returns the dates
axis in ascending order, but the band axis in FIRST-OCCURRENCE order of
the sample's band list — `_map_bands` does not sort (the
`band_info_list.sort()` line is commented out), so the canonical-name
sort the claim states does not happen.  The band infos are assumed to
answer to pairwise disjoint name sets so that the final
`get_band_info` lookups are unambiguous. -/
theorem c2_pack_order (s : Sample) (f : Option ℚ)
    (r : List (List (List (List ℚ))) × List (Option ℕ) × List String)
    (H : s.band_info_list.Pairwise NameDisjoint)
    (hok : s.pack_to_4d none none f = .ok r) :
    r.2.1 = s.dates ∧ List.Sorted dateLeRel r.2.1 ∧
    r.2.2 = listJoin (s.band_info_list.map BandInfo.expand_name) := by
  obtain ⟨h1, h2⟩ := pack_to_4d_default_shape s f r hok
  refine ⟨h1, ?_, ?_⟩
  · rw [h1]
    exact sampleDates_sorted s
  · rw [h2]
    exact expanded_names_of_disjoint s H

/-- C2 counterexample: the same two bands packed after being supplied as
["B", "A"] and as ["A", "B"] yield band axes ["B", "A"] and ["A", "B"]
respectively — the axis follows insertion order, so it cannot be the
insertion-order-independent canonical-name sort the claim states. -/
theorem c2_counterexample :
    (sampleC2cex.pack_to_4d none none none).map (fun r => r.2.2) =
      .ok ["B", "A"] ∧
    (sampleC2cexRev.pack_to_4d none none none).map (fun r => r.2.2) =
      .ok ["A", "B"] ∧
    ["B", "A"] ≠ ["A", "B"] :=
  ⟨rfl, rfl, by decide⟩

/-- C2 witness: a four-band two-date sample (bands first seen as "Y" then
"X") packs with ascending dates and band axis ["Y", "X"]. -/
theorem c2_witness :
    sampleC2wit.band_info_list.Pairwise NameDisjoint ∧
    (∃ r, sampleC2wit.pack_to_4d none none none = .ok r ∧
      r.2.1 = sampleC2wit.dates ∧ List.Sorted dateLeRel r.2.1 ∧
      r.2.2 = listJoin (sampleC2wit.band_info_list.map BandInfo.expand_name)) := by
  have H : sampleC2wit.band_info_list.Pairwise NameDisjoint := by decide
  have h := c2_pack_order sampleC2wit none _ H rfl
  exact ⟨H, _, rfl, h.1, h.2.1, h.2.2⟩

theorem dictHasKey_dictInsert (d : NameDict) (k v q : String) :
    dictHasKey (dictInsert d k v) q = true ↔
      (q = k ∨ dictHasKey d q = true) := by
  induction d with
  | nil =>
    simp only [dictInsert, dictHasKey, List.any_cons, List.any_nil,
      Bool.or_false, Bool.or_eq_true, beq_iff_eq, Bool.false_eq_true, or_false]
    exact ⟨fun h => h.symm, fun h => h.symm⟩
  | cons kv rest ih =>
    by_cases h1 : kv.1 = k
    · rw [show dictInsert (kv :: rest) k v = (k, v) :: rest from by
        rw [dictInsert, if_pos h1]]
      simp only [dictHasKey, List.any_cons, Bool.or_eq_true, beq_iff_eq]
      constructor
      · rintro (h | h)
        · exact Or.inl h.symm
        · exact Or.inr (Or.inr h)
      · rintro (h | h | h)
        · exact Or.inl h.symm
        · exact Or.inl (by rw [← h1]; exact h)
        · exact Or.inr h
    · rw [show dictInsert (kv :: rest) k v = kv :: dictInsert rest k v from by
        rw [dictInsert, if_neg h1]]
      simp only [dictHasKey, List.any_cons, Bool.or_eq_true, beq_iff_eq]
        at ih ⊢
      constructor
      · rintro (h | h)
        · exact Or.inr (Or.inl h)
        · rcases ih.mp h with h2 | h2
          · exact Or.inl h2
          · exact Or.inr (Or.inr h2)
      · rintro (h | h | h)
        · exact Or.inr (ih.mpr (Or.inl h))
        · exact Or.inl h
        · exact Or.inr (ih.mpr (Or.inr h))

theorem dictHasKey_foldl_insert (ns : List String) (v : String)
    (d : NameDict) (q : String) :
    dictHasKey (ns.foldl (fun acc n => dictInsert acc n v) d) q = true ↔
      (dictHasKey d q = true ∨ q ∈ ns) := by
  induction ns generalizing d with
  | nil => simp
  | cons n rest ih =>
    simp only [List.foldl_cons, ih, dictHasKey_dictInsert, List.mem_cons]
    constructor
    · rintro ((h | h) | h)
      · exact Or.inr (Or.inl h)
      · exact Or.inl h
      · exact Or.inr (Or.inr h)
    · rintro (h | h | h)
      · exact Or.inl (Or.inr h)
      · exact Or.inl (Or.inl h)
      · exact Or.inr h

theorem dictHasKey_addBandNames (d : NameDict) (bi : BandInfo) (q : String) :
    dictHasKey (addBandNames d bi) q = true ↔
      (dictHasKey d q = true ∨ q ∈ bi.possibleNames) := by
  unfold addBandNames
  exact dictHasKey_foldl_insert bi.possibleNames bi.name d q

theorem scanBands_snd (u : String) (bis : List BandInfo) (d : NameDict) :
    (scanBands u bis d).2 = true ↔ ∃ bi ∈ bis, u ∈ bi.possibleNames := by
  induction bis generalizing d with
  | nil => simp [scanBands]
  | cons bi rest ih =>
    cases hc : bi.possibleNames.contains u with
    | true =>
      have hmem : u ∈ bi.possibleNames := by simpa using hc
      simp only [scanBands, hc, if_true]
      simp [hmem]
    | false =>
      have hmem : ¬ u ∈ bi.possibleNames := by simpa using hc
      simp only [scanBands, hc, Bool.false_eq_true, if_false, ih]
      simp [hmem]

theorem scanBands_fst (u : String) (bis : List BandInfo) (d : NameDict)
    (q : String) :
    dictHasKey (scanBands u bis d).1 q = true ↔
      (dictHasKey d q = true ∨ ∃ bi ∈ bis,
        u ∈ bi.possibleNames ∧ q ∈ bi.possibleNames) := by
  induction bis generalizing d with
  | nil => simp [scanBands]
  | cons bi rest ih =>
    cases hc : bi.possibleNames.contains u with
    | true =>
      have hmem : u ∈ bi.possibleNames := by simpa using hc
      simp only [scanBands, hc, if_true]
      show dictHasKey (scanBands u rest (addBandNames d bi)).1 q = true ↔ _
      rw [ih, dictHasKey_addBandNames]
      simp [hmem, or_assoc]
    | false =>
      have hmem : ¬ u ∈ bi.possibleNames := by simpa using hc
      simp only [scanBands, hc, Bool.false_eq_true, if_false, ih]
      simp [hmem]

theorem altLoop_error (bis : List BandInfo) (names : List String)
    (d : NameDict)
    (h : ∃ u ∈ names, ∀ bi ∈ bis, u ∉ bi.possibleNames) :
    ∃ u, altLoop bis names d = .error (.unknownBand u) := by
  induction names generalizing d with
  | nil =>
    obtain ⟨u, hu, _⟩ := h
    cases hu
  | cons u0 rest ih =>
    cases hm : (scanBands u0 bis d).2 with
    | false =>
      refine ⟨u0, ?_⟩
      simp only [altLoop, hm, Bool.false_eq_true, if_false]
    | true =>
      obtain ⟨u, hu, hall⟩ := h
      have hu' : u ∈ rest := by
        rcases List.mem_cons.mp hu with rfl | h2
        · obtain ⟨bi, hbi, hmem⟩ := (scanBands_snd u bis d).mp hm
          exact absurd hmem (hall bi hbi)
        · exact h2
      have hrec := ih (scanBands u0 bis d).1 ⟨u, hu', hall⟩
      simpa [altLoop, hm] using hrec

theorem altLoop_ok_keys (bis : List BandInfo) (names : List String) :
    ∀ d d', altLoop bis names d = .ok d' → ∀ q,
      (dictHasKey d' q = true ↔ (dictHasKey d q = true ∨
        ∃ u ∈ names, ∃ bi ∈ bis,
          u ∈ bi.possibleNames ∧ q ∈ bi.possibleNames)) := by
  induction names with
  | nil =>
    intro d d' h q
    simp only [altLoop] at h
    injection h with h2
    subst h2
    simp
  | cons u0 rest ih =>
    intro d d' h q
    cases hm : (scanBands u0 bis d).2 with
    | false =>
      simp only [altLoop, hm, Bool.false_eq_true, if_false] at h
      cases h
    | true =>
      simp only [altLoop, hm, if_true] at h
      rw [ih (scanBands u0 bis d).1 d' h q, scanBands_fst]
      constructor
      · rintro ((h2 | h2) | h2)
        · exact Or.inl h2
        · obtain ⟨bi, hbi, hmem⟩ := h2
          exact Or.inr ⟨u0, List.Mem.head _, bi, hbi, hmem⟩
        · obtain ⟨u, hu, bi, hbi, hmem⟩ := h2
          exact Or.inr ⟨u, List.Mem.tail _ hu, bi, hbi, hmem⟩
      · rintro (h2 | h2)
        · exact Or.inl (Or.inl h2)
        · obtain ⟨u, hu, bi, hbi, hmem⟩ := h2
          rcases List.mem_cons.mp hu with rfl | hu2
          · exact Or.inl (Or.inr ⟨bi, hbi, hmem⟩)
          · exact Or.inr ⟨u, hu2, bi, hbi, hmem⟩

/-- C8 (amended): `alt_to_full_names` raises the unknown-band error when
some requested name matches no band's canonical name or aliases, and on
success returns a map whose keys are exactly the canonical names and
aliases OF THE BANDS MATCHED BY SOME REQUESTED NAME — more than the
requested names themselves, but not the dataset's whole band
vocabulary. -/
theorem c8_alt_to_full_names (bis : List BandInfo) (names : List String) :
    ((∃ u ∈ names, ∀ bi ∈ bis, u ∉ bi.possibleNames) →
      ∃ u, alt_to_full_names bis names = .error (.unknownBand u)) ∧
    (∀ d, alt_to_full_names bis names = .ok d → ∀ q,
      (dictHasKey d q = true ↔ ∃ u ∈ names, ∃ bi ∈ bis,
        u ∈ bi.possibleNames ∧ q ∈ bi.possibleNames)) := by
  constructor
  · intro h
    exact altLoop_error bis names [] h
  · intro d h q
    have hkeys := altLoop_ok_keys bis names [] d h q
    simpa [dictHasKey] using hkeys

/-- C8 counterexample: with vocabulary {a (alias x), b} and request
["a"], the returned map covers only the names of the matched band "a"
(keys "x" and "a"); the vocabulary entry "b" is NOT a key, refuting "a
map covering the whole band vocabulary". -/
theorem c8_counterexample :
    alt_to_full_names [c8biA, c8biB] ["a"] = .ok [("x", "a"), ("a", "a")] ∧
    c8biB ∈ [c8biA, c8biB] ∧ c8biB.name = "b" ∧
    dictHasKey [("x", "a"), ("a", "a")] "b" = false :=
  ⟨rfl, by decide, rfl, by decide⟩

/-- C8 witness: the unknown name "z" errors out; the request ["a"] yields
a map whose key "x" is characterized by the matched band. -/
theorem c8_witness :
    (∃ u ∈ ["z"], ∀ bi ∈ [c8biA, c8biB], u ∉ bi.possibleNames) ∧
    (∃ u, alt_to_full_names [c8biA, c8biB] ["z"] =
      .error (.unknownBand u)) ∧
    alt_to_full_names [c8biA, c8biB] ["a"] = .ok [("x", "a"), ("a", "a")] ∧
    (dictHasKey [("x", "a"), ("a", "a")] "x" = true ↔
      ∃ u ∈ ["a"], ∃ bi ∈ [c8biA, c8biB],
        u ∈ bi.possibleNames ∧ "x" ∈ bi.possibleNames) :=
  ⟨by decide, (c8_alt_to_full_names [c8biA, c8biB] ["z"]).1 (by decide),
    rfl, (c8_alt_to_full_names [c8biA, c8biB] ["a"]).2 _ rfl "x"⟩
